import Mathlib

/-!
# Verification development for the AWS provider bindings

A shallow embedding of the Glue partition-ID codec
(`internal/service/glue/id.go`), the AppStream finders, status functions and
waiters (`internal/service/appstream/find.go`, `status.go`,
`aws/internal/service/appstream/waiter/waiter.go`), the Amplify status
function (`aws/internal/service/amplify/waiter/status.go`), the EC2 transit
gateway data source (`aws/data_source_aws_ec2_transit_gateway.go`), the
scaling plan sweeper (`internal/service/autoscalingplans/sweep.go`), the
listener ARN helper tested in `aws/resource_aws_lb_listener_rule_test.go` and
the destroy check of
`internal/service/chime/voice_connector_streaming_test.go`, followed by the
theorems about them.

Modelling conventions.
* A Go `string` is a Lean `String` (a sequence of characters).  The only
  library calls on strings in the embedded code split, trim and join at the
  one-byte ASCII characters `:`, `#` and `/`; on well-formed UTF-8 text
  splitting at such a byte and splitting at the character coincide.
* A Go pointer `*T` is `Option T` (`none` is the nil pointer); a Go slice is a
  `List`.
* A Go `error` is `Option GoError` (`none` is the nil error).
* A call on the AWS connection is a state transformer on an abstract world
  `σ`: it returns the call's results together with the next world.
* A loop that may go on for ever takes a number of rounds (`fuel`) and returns
  `none` when they are used up.
* A function of the provider that the embedded code calls and that is declared
  in a package not embedded here is a parameter of the embedding.
-/

namespace AwsProvider

/-! ## Go runtime values -/

/-- Go `error` values that occur in the embedded code: an error handed back by
an AWS SDK call (identified by its code and message), an error built by
`fmt.Errorf` or `errors.New` (identified by its formatted message), and an
error built by `fmt.Errorf` with the verb `%w` (its formatted message and the
error it wraps).  A `*multierror.Error` is not among them, see `MultiError`. -/
inductive GoError where
  | sdk (code : String) (message : String)
  | errorf (message : String)
  | wrapf (message : String) (inner : GoError)
deriving DecidableEq, Repr

/-- Go `Error()`: the text of an error. -/
def GoError.Error : GoError → String
  | GoError.sdk code message => code ++ ": " ++ message
  | GoError.errorf message => message
  | GoError.wrapf message _ => message

/-- Go `errors.New(text)`. -/
def errorsNew (text : String) : GoError := GoError.errorf text

/-- Go `fmt.Errorf(text + "%w", err)`: the text followed by the text of the
wrapped error, and the wrapped error itself. -/
def errorfWrap (text : String) (err : GoError) : GoError :=
  GoError.wrapf (text ++ err.Error) err

/-! ## Go standard library: `strings.Split`, `strings.Trim`, `strings.Join` -/

/-- One pass of `strings.Split` over the characters of a string, for a
one-character separator: the piece in front of the first separator, and the
pieces after it. -/
def splitAux (sep : Char) : List Char → List Char × List (List Char)
  | [] => ([], [])
  | c :: cs =>
    let r := splitAux sep cs
    if c = sep then ([], r.1 :: r.2) else (c :: r.1, r.2)

/-- Character-level `strings.Split` for a one-character separator: all the
pieces between separators, in order (always at least one piece). -/
def splitChars (sep : Char) (s : List Char) : List (List Char) :=
  (splitAux sep s).1 :: (splitAux sep s).2

/-- Go `strings.Split(s, sep)` for a separator of one character. -/
def stringsSplit (s : String) (sep : Char) : List String :=
  (splitChars sep s.data).map String.mk

/-- Character-level `strings.Trim` for a one-character cutset: all leading and
all trailing occurrences of the character are removed. -/
def trimChars (cut : Char) (s : List Char) : List Char :=
  ((s.dropWhile (fun c => c == cut)).reverse.dropWhile (fun c => c == cut)).reverse

/-- Go `strings.Trim(s, cutset)` for a cutset of one character. -/
def stringsTrim (s : String) (cut : Char) : String :=
  String.mk (trimChars cut s.data)

/-- Go `strings.Join(elems, sep)`: the elements with `sep` between each two. -/
def stringsJoin (elems : List String) (sep : String) : String :=
  match elems with
  | [] => ""
  | [a] => a
  | a :: b :: rest => a ++ sep ++ stringsJoin (b :: rest) sep

/-- Character-level `strings.Join`: the pieces with `sep` between each two. -/
def joinChars (sep : List Char) : List (List Char) → List Char
  | [] => []
  | [a] => a
  | a :: b :: rest => a ++ sep ++ joinChars sep (b :: rest)

/-! ## `internal/service/glue/id.go` -/

/-- An element of the `[]interface{}` handed to `createPartitionID`: either a
string or a value of some other dynamic type. -/
inductive PartValue where
  | str (s : String)
  | other (n : Int)
deriving DecidableEq, Repr

/-- The five results of `readPartitionID`. -/
structure PartitionID where
  catalogID : String
  dbName : String
  tableName : String
  values : List String
  error : Option GoError
deriving DecidableEq, Repr

/-- The message of the error `readPartitionID` builds with `fmt.Errorf`. -/
def readPartitionIDMessage (id : String) : String :=
  "expected ID in format catalog-id:database-name:table-name:values, received: " ++ id

/-- Go `readPartitionID`: split the id on `:`; unless that gives four parts,
fail; otherwise the fourth part is split on `#` into the values. -/
def readPartitionID (id : String) : PartitionID :=
  match stringsSplit id ':' with
  | [p0, p1, p2, p3] =>
    { catalogID := p0, dbName := p1, tableName := p2,
      values := stringsSplit p3 '#', error := none }
  | _ =>
    { catalogID := "", dbName := "", tableName := "", values := [],
      error := some (GoError.errorf (readPartitionIDMessage id)) }

/-- Go `stringifyPartition`: every value, asserted to be a string (`val.(string)`,
which panics on any other dynamic type: `none`), is written to the buffer
followed by `#`; the buffer is then trimmed of `#` at both ends. -/
def stringifyPartition (partValues : List PartValue) : Option String :=
  let step (b : Option String) (val : PartValue) : Option String :=
    match b, val with
    | some buf, PartValue.str s => some (buf ++ (s ++ "#"))
    | _, _ => none
  (partValues.foldl step (some "")).map (fun b => stringsTrim b '#')

/-- Go `createPartitionID`: `fmt.Sprintf("%s:%s:%s:%s", ...)` over the three
names and the stringified values (`none` when `stringifyPartition` panics). -/
def createPartitionID (catalogID dbName tableName : String)
    (values : List PartValue) : Option String :=
  (stringifyPartition values).map
    (fun vals => catalogID ++ ":" ++ dbName ++ ":" ++ tableName ++ ":" ++ vals)

/-- Characters held by the buffer of `stringifyPartition` after the loop over
string values: each value followed by `#`. -/
def bufferChars : List (List Char) → List Char
  | [] => []
  | v :: vs => v ++ '#' :: bufferChars vs

/-! ## AWS SDK types used by the AppStream code

The SDK structures `appstream.Stack` and `appstream.Fleet` are carried around
by pointer; of their fields only `Fleet.State` is read by the embedded code.
-/

/-- SDK `appstream.Stack` (pointer fields). -/
structure Stack where
  Arn : Option String
  Name : Option String
  Description : Option String
deriving DecidableEq, Repr

/-- SDK `appstream.Fleet` (pointer fields). -/
structure Fleet where
  Arn : Option String
  Name : Option String
  State : Option String
deriving DecidableEq, Repr

/-- SDK `appstream.DescribeStacksInput`. -/
structure DescribeStacksInput where
  Names : List (Option String)
  NextToken : Option String
deriving DecidableEq, Repr

/-- SDK `appstream.DescribeStacksOutput`; `Stacks` is a `[]*Stack`. -/
structure DescribeStacksOutput where
  Stacks : List (Option Stack)
  NextToken : Option String
deriving DecidableEq, Repr

/-- SDK `appstream.DescribeFleetsInput`. -/
structure DescribeFleetsInput where
  Names : List (Option String)
  NextToken : Option String
deriving DecidableEq, Repr

/-- SDK `appstream.DescribeFleetsOutput`; `Fleets` is a `[]*Fleet`. -/
structure DescribeFleetsOutput where
  Fleets : List (Option Fleet)
  NextToken : Option String
deriving DecidableEq, Repr

/-- The AppStream connection `*appstream.AppStream` over a world `σ`: each
describe call returns its pair `(resp, err)` and the next world.  The SDK
allocates the output structure before it sends the request, so `resp` is never
a nil pointer. -/
structure AppStream (σ : Type) where
  DescribeStacksWithContext :
    DescribeStacksInput → σ → (DescribeStacksOutput × Option GoError) × σ
  DescribeFleetsWithContext :
    DescribeFleetsInput → σ → (DescribeFleetsOutput × Option GoError) × σ

/-- Go `aws.StringValue`: the string pointed to, or `""` for a nil pointer. -/
def awsStringValue (p : Option String) : String :=
  match p with
  | some s => s
  | none => ""

/-- Go `aws.String`: a pointer to the string. -/
def awsString (s : String) : Option String := some s

/-! ## `internal/service/appstream/find.go` -/

/-- Go `findStackByName`: describe the stacks of that name; pass a describe
error through, fail on more than one stack, return the single stack when there
is exactly one, and the nil stack otherwise. -/
def findStackByName {σ : Type} (conn : AppStream σ) (name : String) (w : σ) :
    (Option Stack × Option GoError) × σ :=
  let input : DescribeStacksInput := { Names := [awsString name], NextToken := none }
  let stack : Option Stack := none
  let r := conn.DescribeStacksWithContext input w
  let resp := r.1.1
  match r.1.2 with
  | some err => ((none, some err), r.2)
  | none =>
    if 1 < resp.Stacks.length then
      ((none, some (GoError.errorf ("got more than one stack with the name " ++ name))), r.2)
    else
      let stack := if resp.Stacks.length = 1 then resp.Stacks.getD 0 none else stack
      ((stack, none), r.2)

/-- Go `findFleetByName`: as `findStackByName`, for fleets. -/
def findFleetByName {σ : Type} (conn : AppStream σ) (name : String) (w : σ) :
    (Option Fleet × Option GoError) × σ :=
  let input : DescribeFleetsInput := { Names := [awsString name], NextToken := none }
  let fleet : Option Fleet := none
  let r := conn.DescribeFleetsWithContext input w
  let resp := r.1.1
  match r.1.2 with
  | some err => ((none, some err), r.2)
  | none =>
    if 1 < resp.Fleets.length then
      ((none, some (GoError.errorf ("got more than one fleet with the name " ++ name))), r.2)
    else
      let fleet := if resp.Fleets.length = 1 then resp.Fleets.getD 0 none else fleet
      ((fleet, none), r.2)

/-! ## `internal/service/appstream/status.go` -/

/-- SDK `amplify.DomainAssociation` (pointer fields). -/
structure DomainAssociation where
  DomainAssociationArn : Option String
  DomainName : Option String
  DomainStatus : Option String
deriving DecidableEq, Repr

/-- The `interface{}` result of a refresh function: the nil interface, or an
interface holding a `*appstream.Stack`, a `*appstream.Fleet` or a
`*amplify.DomainAssociation` (which may itself be a nil pointer). -/
inductive GoAny where
  | nil
  | stack (p : Option Stack)
  | fleet (p : Option Fleet)
  | domainAssociation (p : Option DomainAssociation)
deriving DecidableEq, Repr

/-- SDK `resource.StateRefreshFunc`: result, state and error of one poll. -/
abbrev StateRefreshFunc (σ : Type) := σ → (GoAny × String × Option GoError) × σ

/-- Go `statusStackState`: the refresh function that looks the stack up. -/
def statusStackState {σ : Type} (conn : AppStream σ) (name : String) : StateRefreshFunc σ :=
  fun w =>
    let r := findStackByName conn name w
    let stack := r.1.1
    match r.1.2 with
    | some err => ((GoAny.nil, "Unknown", some err), r.2)
    | none =>
      if stack = none then ((GoAny.stack stack, "NotFound", none), r.2)
      else ((GoAny.stack stack, "AVAILABLE", none), r.2)

/-- Go `statusFleetState`: the refresh function that looks the fleet up and
reports its `State`. -/
def statusFleetState {σ : Type} (conn : AppStream σ) (name : String) : StateRefreshFunc σ :=
  fun w =>
    let r := findFleetByName conn name w
    match r.1.2 with
    | some err => ((GoAny.nil, "Unknown", some err), r.2)
    | none =>
      match r.1.1 with
      | none => ((GoAny.fleet none, "NotFound", none), r.2)
      | some fleet => ((GoAny.fleet (some fleet), awsStringValue fleet.State, none), r.2)

/-! ## `aws/internal/service/appstream/waiter/waiter.go` -/

/-- Go `time.Minute`, a `time.Duration` in nanoseconds. -/
def timeMinute : Int := 60 * 1000000000

/-- Maximum amount of time to wait for Stack operation eventual consistency. -/
def stackOperationTimeout : Int := 4 * timeMinute

/-- Maximum amount of time to wait for the statusFleetState to be RUNNING or
STOPPED. -/
def fleetStateTimeout : Int := 180 * timeMinute

/-- Maximum amount of time to wait for Fleet operation eventual consistency. -/
def fleetOperationTimeout : Int := 15 * timeMinute

/-- Modelled from the spec: the AWS SDK enum value `appstream.FleetStateStarting`,
declared outside this repository. -/
def FleetStateStarting : String := "STARTING"

/-- Modelled from the spec: the AWS SDK enum value `appstream.FleetStateRunning`,
declared outside this repository. -/
def FleetStateRunning : String := "RUNNING"

/-- Modelled from the spec: the AWS SDK enum value `appstream.FleetStateStopping`,
declared outside this repository. -/
def FleetStateStopping : String := "STOPPING"

/-- Modelled from the spec: the AWS SDK enum value `appstream.FleetStateStopped`,
declared outside this repository. -/
def FleetStateStopped : String := "STOPPED"

/-- SDK `resource.StateChangeConf`; a field the code leaves out of the literal
has Go's zero value. -/
structure StateChangeConf (σ : Type) where
  Delay : Int := 0
  Pending : List String := []
  Refresh : StateRefreshFunc σ
  Target : List String := []
  Timeout : Int := 0
  MinTimeout : Int := 0
  PollInterval : Int := 0
  NotFoundChecks : Int := 0
  ContinuousTargetOccurence : Int := 0

/-- SDK `(*StateChangeConf).WaitForStateContext`, the polling helper of the
plugin SDK: from a configuration and a world to `(result, error)` and the next
world. -/
abbrev WaitForState (σ : Type) := StateChangeConf σ → σ → (GoAny × Option GoError) × σ

/-- The `stateConf` literal of `waitStackStateDeleted`. -/
def waitStackStateDeletedConf {σ : Type} (conn : AppStream σ) (name : String) :
    StateChangeConf σ :=
  { Target := ["NotFound", "Unknown"],
    Refresh := statusStackState conn name,
    Timeout := stackOperationTimeout }

/-- Go `waitStackStateDeleted`: run the polling helper on the configuration and
type-assert its output to `*appstream.Stack`. -/
def waitStackStateDeleted {σ : Type} (WaitForStateContext : WaitForState σ)
    (conn : AppStream σ) (name : String) (w : σ) : (Option Stack × Option GoError) × σ :=
  let stateConf := waitStackStateDeletedConf conn name
  let r := WaitForStateContext stateConf w
  let err := r.1.2
  match r.1.1 with
  | GoAny.stack output => ((output, err), r.2)
  | _ => ((none, err), r.2)

/-- The `stateConf` literal of `waitFleetStateRunning`. -/
def waitFleetStateRunningConf {σ : Type} (conn : AppStream σ) (name : String) :
    StateChangeConf σ :=
  { Pending := [FleetStateStarting],
    Target := [FleetStateRunning],
    Refresh := statusFleetState conn name,
    Timeout := fleetStateTimeout }

/-- Go `waitFleetStateRunning`: run the polling helper on the configuration and
type-assert its output to `*appstream.Fleet`. -/
def waitFleetStateRunning {σ : Type} (WaitForStateContext : WaitForState σ)
    (conn : AppStream σ) (name : String) (w : σ) : (Option Fleet × Option GoError) × σ :=
  let stateConf := waitFleetStateRunningConf conn name
  let r := WaitForStateContext stateConf w
  let err := r.1.2
  match r.1.1 with
  | GoAny.fleet output => ((output, err), r.2)
  | _ => ((none, err), r.2)

/-- The `stateConf` literal of `waitFleetStateStopped`. -/
def waitFleetStateStoppedConf {σ : Type} (conn : AppStream σ) (name : String) :
    StateChangeConf σ :=
  { Pending := [FleetStateStopping],
    Target := [FleetStateStopped],
    Refresh := statusFleetState conn name,
    Timeout := fleetStateTimeout }

/-- Go `waitFleetStateStopped`: run the polling helper on the configuration and
type-assert its output to `*appstream.Fleet`. -/
def waitFleetStateStopped {σ : Type} (WaitForStateContext : WaitForState σ)
    (conn : AppStream σ) (name : String) (w : σ) : (Option Fleet × Option GoError) × σ :=
  let stateConf := waitFleetStateStoppedConf conn name
  let r := WaitForStateContext stateConf w
  let err := r.1.2
  match r.1.1 with
  | GoAny.fleet output => ((output, err), r.2)
  | _ => ((none, err), r.2)

/-! ## Sample connections

Connections over the trivial world that answer every describe call with a
fixed pair. -/

/-- A connection whose describe calls always return the given pairs. -/
def fixedConn (stackResult : DescribeStacksOutput × Option GoError)
    (fleetResult : DescribeFleetsOutput × Option GoError) : AppStream Unit :=
  { DescribeStacksWithContext := fun _ w => (stackResult, w),
    DescribeFleetsWithContext := fun _ w => (fleetResult, w) }

/-- A connection over a call counter on which the stack is there for the first
`after` describe calls and gone from then on; every call raises the counter. -/
def vanishingStackConn (after : Nat) : AppStream Nat :=
  { DescribeStacksWithContext := fun _ m =>
      (({ Stacks :=
            if m < after then [some { Arn := none, Name := some "web", Description := none }]
            else [],
          NextToken := none }, none), m + 1),
    DescribeFleetsWithContext := fun _ m => (({ Fleets := [], NextToken := none }, none), m + 1) }

/-! ## A polling helper

A helper to run the waiters on: it polls the refresh function for at most a
given number of rounds. -/

/-- A polling helper that polls for at most `rounds` rounds: an error of the
refresh function ends the polling with that error, a state of the target set
ends it with the result of the refresh, any other state is polled again, and
when the rounds are used up the helper reports a timeout. -/
def pollRounds {σ : Type} : Nat → WaitForState σ
  | 0, _, w => ((GoAny.nil, some (GoError.errorf "timeout while waiting for state")), w)
  | rounds + 1, conf, w =>
    let r := conf.Refresh w
    match r.1.2.2 with
    | some err => ((GoAny.nil, some err), r.2)
    | none =>
      if r.1.2.1 ∈ conf.Target then ((r.1.1, none), r.2)
      else pollRounds rounds conf r.2

/-! ## `aws/internal/service/amplify/waiter/status.go` -/

/-- Go `statusDomainAssociation`: the refresh function that looks a domain
association up.  The finder `FindDomainAssociationByAppIDAndDomainName` and the
test `tfresource.NotFound` belong to other packages of the provider and are
parameters.  Reading `DomainStatus` through a nil
`domainAssociation` panics: `none`. -/
def statusDomainAssociation {σ : Type}
    (FindDomainAssociationByAppIDAndDomainName :
      String → String → σ → (Option DomainAssociation × Option GoError) × σ)
    (NotFound : Option GoError → Bool)
    (appID domainName : String) (w : σ) :
    Option ((GoAny × String × Option GoError) × σ) :=
  let r := FindDomainAssociationByAppIDAndDomainName appID domainName w
  let domainAssociation := r.1.1
  let err := r.1.2
  if NotFound err then some ((GoAny.nil, "", none), r.2)
  else
    match err with
    | some e => some ((GoAny.nil, "", some e), r.2)
    | none =>
      match domainAssociation with
      | some da =>
        some ((GoAny.domainAssociation domainAssociation, awsStringValue da.DomainStatus, none), r.2)
      | none => none

/-! ## `aws/data_source_aws_ec2_transit_gateway.go` -/

/-- SDK `ec2.TransitGatewayOptions` (pointer fields). -/
structure TransitGatewayOptions where
  AmazonSideAsn : Option Int
  AssociationDefaultRouteTableId : Option String
  AutoAcceptSharedAttachments : Option String
  DefaultRouteTableAssociation : Option String
  DefaultRouteTablePropagation : Option String
  DnsSupport : Option String
  PropagationDefaultRouteTableId : Option String
  VpnEcmpSupport : Option String
deriving DecidableEq, Repr

/-- SDK `ec2.Tag`. -/
structure Ec2Tag where
  Key : Option String
  Value : Option String
deriving DecidableEq, Repr

/-- SDK `ec2.TransitGateway` (pointer fields). -/
structure TransitGateway where
  Description : Option String
  Options : Option TransitGatewayOptions
  OwnerId : Option String
  State : Option String
  Tags : List (Option Ec2Tag)
  TransitGatewayArn : Option String
  TransitGatewayId : Option String
deriving DecidableEq, Repr

/-- SDK `ec2.Filter`. -/
structure Ec2Filter where
  Name : Option String
  Values : List (Option String)
deriving DecidableEq, Repr

/-- SDK `ec2.DescribeTransitGatewaysInput`; `{}` is the zero value that
`&ec2.DescribeTransitGatewaysInput{}` allocates. -/
structure DescribeTransitGatewaysInput where
  DryRun : Option Bool := none
  Filters : List (Option Ec2Filter) := []
  MaxResults : Option Int := none
  NextToken : Option String := none
  TransitGatewayIds : List (Option String) := []
deriving DecidableEq, Repr

/-- SDK `ec2.DescribeTransitGatewaysOutput`. -/
structure DescribeTransitGatewaysOutput where
  NextToken : Option String
  TransitGateways : List (Option TransitGateway)
deriving DecidableEq, Repr

/-- The provider's `*AWSClient` as far as the data source reads it: the EC2
connection, whose `DescribeTransitGateways` returns `(output, err)` and the
next world, and the configuration of ignored tags (of a type `κ` declared in
the package `keyvaluetags`). -/
structure AWSClient (σ : Type) (κ : Type) where
  ec2conn : DescribeTransitGatewaysInput → σ →
    (Option DescribeTransitGatewaysOutput × Option GoError) × σ
  IgnoreTagsConfig : κ

/-- One `filter` block of the configuration. -/
structure FilterBlock where
  name : String
  values : List String
deriving DecidableEq, Repr

/-- The `*schema.ResourceData` of the data source: its ID (`d.Id()`) and the
attributes of the schema declared by `dataSourceAwsEc2TransitGateway`.  An
attribute that is not set has Go's zero value. -/
structure TransitGatewayData where
  Id : String
  amazon_side_asn : Option Int
  arn : Option String
  association_default_route_table_id : Option String
  auto_accept_shared_attachments : Option String
  default_route_table_association : Option String
  default_route_table_propagation : Option String
  description : Option String
  dns_support : Option String
  filter : List FilterBlock
  id : String
  owner_id : Option String
  propagation_default_route_table_id : Option String
  tags : List (String × String)
  vpn_ecmp_support : Option String
deriving DecidableEq, Repr

/-- SDK `d.SetId(v)`: the ID of the resource becomes `v`, and the attribute
`id` is written with the same value. -/
def TransitGatewayData.SetId (d : TransitGatewayData) (v : String) : TransitGatewayData :=
  { d with Id := v, id := v }

/-- SDK `d.GetOk` on a string attribute: the value, and whether it is set to
something other than the zero value `""`. -/
def getOkString (v : String) : String × Bool := (v, decide (v ≠ ""))

/-- SDK `d.GetOk` on a set attribute: the value, and whether it is set to
something other than the empty set. -/
def getOkSet (v : List FilterBlock) : List FilterBlock × Bool := (v, decide (v ≠ []))

/-- The request `dataSourceAwsEc2TransitGatewayRead` builds: the zero input,
with `Filters` when `filter` is set and `TransitGatewayIds` when `id` is set.
`buildAwsDataSourceFilters` is declared in another file of the provider and
is a parameter. -/
def dataSourceAwsEc2TransitGatewayReadInput
    (buildAwsDataSourceFilters : List FilterBlock → List (Option Ec2Filter))
    (d : TransitGatewayData) : DescribeTransitGatewaysInput :=
  let input : DescribeTransitGatewaysInput := {}
  let input :=
    if (getOkSet d.filter).2 then
      { input with Filters := buildAwsDataSourceFilters (getOkSet d.filter).1 }
    else input
  let input :=
    if (getOkString d.id).2 then
      { input with TransitGatewayIds := [awsString (getOkString d.id).1] }
    else input
  input

/-- Go `dataSourceAwsEc2TransitGatewayRead`: describe the transit gateways for
the request, fail unless there is exactly one, non-nil and with options, then
store its attributes, its tags and its ID.  The tag conversion
`keyvaluetags.Ec2KeyValueTags(..).IgnoreAws().IgnoreConfig(..).Map()` and the
outcome of `d.Set("tags", ..)`, the one `d.Set` whose error is looked at, are
parameters. -/
def dataSourceAwsEc2TransitGatewayRead {σ κ : Type}
    (buildAwsDataSourceFilters : List FilterBlock → List (Option Ec2Filter))
    (tagsMap : List (Option Ec2Tag) → κ → List (String × String))
    (setTags : List (String × String) → Option GoError)
    (d : TransitGatewayData) (client : AWSClient σ κ) (w : σ) :
    (TransitGatewayData × Option GoError) × σ :=
  let conn := client.ec2conn
  let ignoreTagsConfig := client.IgnoreTagsConfig
  let input := dataSourceAwsEc2TransitGatewayReadInput buildAwsDataSourceFilters d
  let r := conn input w
  match r.1.2 with
  | some err => ((d, some (errorfWrap "error reading EC2 Transit Gateway: " err)), r.2)
  | none =>
    match r.1.1 with
    | none => ((d, some (errorsNew "error reading EC2 Transit Gateway: no results found")), r.2)
    | some output =>
      if output.TransitGateways.length = 0 then
        ((d, some (errorsNew "error reading EC2 Transit Gateway: no results found")), r.2)
      else if 1 < output.TransitGateways.length then
        ((d, some (errorsNew
          "error reading EC2 Transit Gateway: multiple results found, try adjusting search criteria")),
          r.2)
      else
        match output.TransitGateways.getD 0 none with
        | none => ((d, some (errorsNew "error reading EC2 Transit Gateway: empty result")), r.2)
        | some transitGateway =>
          match transitGateway.Options with
          | none =>
            ((d, some (errorsNew "error reading EC2 Transit Gateway: missing options")), r.2)
          | some options =>
            let d := { d with amazon_side_asn := options.AmazonSideAsn }
            let d := { d with arn := transitGateway.TransitGatewayArn }
            let d := { d with
              association_default_route_table_id := options.AssociationDefaultRouteTableId }
            let d := { d with
              auto_accept_shared_attachments := options.AutoAcceptSharedAttachments }
            let d := { d with
              default_route_table_association := options.DefaultRouteTableAssociation }
            let d := { d with
              default_route_table_propagation := options.DefaultRouteTablePropagation }
            let d := { d with description := transitGateway.Description }
            let d := { d with dns_support := options.DnsSupport }
            let d := { d with owner_id := transitGateway.OwnerId }
            let d := { d with
              propagation_default_route_table_id := options.PropagationDefaultRouteTableId }
            match setTags (tagsMap transitGateway.Tags ignoreTagsConfig) with
            | some err => ((d, some (errorfWrap "error setting tags: " err)), r.2)
            | none =>
              let d := { d with tags := tagsMap transitGateway.Tags ignoreTagsConfig }
              let d := { d with vpn_ecmp_support := options.VpnEcmpSupport }
              let d := d.SetId (awsStringValue transitGateway.TransitGatewayId)
              ((d, none), r.2)

/-! ## `internal/service/autoscalingplans/sweep.go` -/

/-- The library type `*multierror.Error`: the errors it collects.  The pointer
itself is an `Option MultiError`. -/
structure MultiError where
  Errors : List GoError
deriving DecidableEq, Repr

/-- The Go `error` a sweeper returns: an ordinary error, or a
`*multierror.Error`. -/
inductive SweeperError where
  | plain (e : GoError)
  | multi (m : MultiError)
deriving DecidableEq, Repr

/-- Library `multierror.Append(err, e)` for a `*multierror.Error` and an
ordinary non-nil error: the error is added at the end, a nil `err` being
allocated first. -/
def multierrorAppend (err : Option MultiError) (e : GoError) : Option MultiError :=
  match err with
  | none => some { Errors := [e] }
  | some m => some { Errors := m.Errors ++ [e] }

/-- Library `(*multierror.Error).ErrorOrNil`: nil for a nil pointer or an
empty collection, the collection otherwise. -/
def errorOrNil (err : Option MultiError) : Option SweeperError :=
  match err with
  | none => none
  | some m => if m.Errors.length = 0 then none else some (SweeperError.multi m)

/-- Go `aws.Int64Value`: the integer pointed to, or `0` for a nil pointer. -/
def awsInt64Value (p : Option Int) : Int :=
  match p with
  | some n => n
  | none => 0

/-- SDK `autoscalingplans.ScalingPlan` (pointer fields). -/
structure ScalingPlan where
  ScalingPlanName : Option String
  ScalingPlanVersion : Option Int
  StatusCode : Option String
deriving DecidableEq, Repr

/-- SDK `autoscalingplans.DescribeScalingPlansInput`; `{}` is the zero value. -/
structure DescribeScalingPlansInput where
  MaxResults : Option Int := none
  NextToken : Option String := none
  ScalingPlanNames : List (Option String) := []
  ScalingPlanVersion : Option Int := none
deriving DecidableEq, Repr

/-- SDK `autoscalingplans.DescribeScalingPlansOutput`.  The SDK unmarshals every
member of `ScalingPlans` into an allocated structure, so the members are not
nil pointers. -/
structure DescribeScalingPlansOutput where
  NextToken : Option String
  ScalingPlans : List ScalingPlan
deriving DecidableEq, Repr

/-- The sweep client as far as the sweeper uses it: the Auto Scaling Plans
connection, whose `DescribeScalingPlans` returns `(output, err)` and the next
world. -/
structure SweepClient (σ : Type) where
  AutoScalingPlansConn :
    DescribeScalingPlansInput → σ → (DescribeScalingPlansOutput × Option GoError) × σ

/-- The `*schema.ResourceData` the sweeper hands to `Delete`: its ID and the
two attributes the sweeper sets. -/
structure ScalingPlanData where
  Id : String
  name : String
  scaling_plan_version : Int
deriving DecidableEq, Repr

/-- The resource data the sweeper builds for one scaling plan. -/
def scalingPlanData (scalingPlan : ScalingPlan) : ScalingPlanData :=
  let scalingPlanName := awsStringValue scalingPlan.ScalingPlanName
  let scalingPlanVersion := awsInt64Value scalingPlan.ScalingPlanVersion
  { Id := "????????????????", name := scalingPlanName,
    scaling_plan_version := scalingPlanVersion }

/-- The inner loop of `sweepScalingPlans` over the scaling plans of one page:
`Delete` is called for each plan in turn and a failure is appended to
`sweeperErrs`, the loop going on with the next plan.  `Delete` is the delete
function of `ResourceScalingPlan()`, declared in another file of the package,
and is a parameter. -/
def sweepScalingPlansPage {σ : Type}
    (Delete : ScalingPlanData → SweepClient σ → σ → Option GoError × σ)
    (client : SweepClient σ) (plans : List ScalingPlan)
    (sweeperErrs : Option MultiError) (w : σ) : Option MultiError × σ :=
  plans.foldl
    (fun (acc : Option MultiError × σ) (scalingPlan : ScalingPlan) =>
      let d := scalingPlanData scalingPlan
      let r := Delete d client acc.2
      match r.1 with
      | some err => (multierrorAppend acc.1 err, r.2)
      | none => (acc.1, r.2))
    (sweeperErrs, w)

/-- The `for` loop of `sweepScalingPlans`, run for at most `fuel` rounds
(`none` when the rounds are used up): list a page; stop on a listing error,
skippable or not; delete the plans of the page; stop when the page has no
next token, and go on with that token otherwise.  `SkipSweepError` belongs to
the package `sweep` and is a parameter. -/
def sweepScalingPlansLoop {σ : Type} (SkipSweepError : Option GoError → Bool)
    (Delete : ScalingPlanData → SweepClient σ → σ → Option GoError × σ)
    (client : SweepClient σ) :
    Nat → DescribeScalingPlansInput → Option MultiError → σ →
      Option (Option SweeperError × σ)
  | 0, _, _, _ => none
  | fuel + 1, input, sweeperErrs, w =>
    let conn := client.AutoScalingPlansConn
    let r := conn input w
    let output := r.1.1
    let err := r.1.2
    if SkipSweepError err then some (errorOrNil sweeperErrs, r.2)
    else
      match err with
      | some e =>
        let sweeperErrs := multierrorAppend sweeperErrs
          (errorfWrap "error listing Auto Scaling Scaling Plans: " e)
        some (errorOrNil sweeperErrs, r.2)
      | none =>
        let p := sweepScalingPlansPage Delete client output.ScalingPlans sweeperErrs r.2
        if awsStringValue output.NextToken = "" then some (errorOrNil p.1, p.2)
        else
          sweepScalingPlansLoop SkipSweepError Delete client fuel
            { input with NextToken := output.NextToken } p.1 p.2

/-- Go `sweepScalingPlans`: get the client for the region, failing with the
wrapped error when there is none, then run the loop from the zero input and
no collected error.  `SharedRegionalSweepClient` belongs to the package
`sweep` and is a parameter. -/
def sweepScalingPlans {σ : Type}
    (SharedRegionalSweepClient : String → σ → Except GoError (SweepClient σ) × σ)
    (SkipSweepError : Option GoError → Bool)
    (Delete : ScalingPlanData → SweepClient σ → σ → Option GoError × σ)
    (fuel : Nat) (region : String) (w : σ) : Option (Option SweeperError × σ) :=
  let c := SharedRegionalSweepClient region w
  match c.1 with
  | Except.error err =>
    some (some (SweeperError.plain (errorfWrap "error getting client: " err)), c.2)
  | Except.ok client =>
    let input : DescribeScalingPlansInput := {}
    let sweeperErrs : Option MultiError := none
    sweepScalingPlansLoop SkipSweepError Delete client fuel input sweeperErrs c.2

/-! ### A scripted service for the sweeper

The service is a list of answers to the coming describe calls and a list of
outcomes of the coming deletions; it logs the requests and deletions it
receives. -/

/-- The world of the scripted service. -/
structure SweepScript where
  responses : List (DescribeScalingPlansOutput × Option GoError)
  deleteResults : List (Option GoError)
  requests : List DescribeScalingPlansInput
  deletes : List ScalingPlanData
deriving DecidableEq, Repr

/-- The describe call of the scripted service: log the request and give the
next answer (an empty last page when the answers are used up). -/
def scriptedDescribe (input : DescribeScalingPlansInput) (s : SweepScript) :
    (DescribeScalingPlansOutput × Option GoError) × SweepScript :=
  match s.responses with
  | [] => (({ NextToken := none, ScalingPlans := [] }, none),
      { s with requests := s.requests ++ [input] })
  | r :: rest => (r, { s with responses := rest, requests := s.requests ++ [input] })

/-- The client of the scripted service. -/
def scriptedClient : SweepClient SweepScript :=
  { AutoScalingPlansConn := scriptedDescribe }

/-- The deletion of the scripted service: log the resource data and give the
next outcome (success when the outcomes are used up). -/
def scriptedDelete (d : ScalingPlanData) (_client : SweepClient SweepScript)
    (s : SweepScript) : Option GoError × SweepScript :=
  match s.deleteResults with
  | [] => (none, { s with deletes := s.deletes ++ [d] })
  | r :: rest => (r, { s with deleteResults := rest, deletes := s.deletes ++ [d] })

/-- The scripted service hands its client out for every region. -/
def scriptedSweepClient (_region : String) (s : SweepScript) :
    Except GoError (SweepClient SweepScript) × SweepScript :=
  (Except.ok scriptedClient, s)

/-- The fresh scripted service: answers and outcomes to come, empty logs. -/
def sweepScript (responses : List (DescribeScalingPlansOutput × Option GoError))
    (deleteResults : List (Option GoError)) : SweepScript :=
  { responses := responses, deleteResults := deleteResults, requests := [], deletes := [] }

/-- All the errors appended to a `*multierror.Error`, in order. -/
def multierrorAppendAll (err : Option MultiError) (es : List GoError) : Option MultiError :=
  es.foldl multierrorAppend err

/-- The number of scaling plans on a list of pages. -/
def planCount (pages : List DescribeScalingPlansOutput) : Nat :=
  (pages.map (fun p => p.ScalingPlans.length)).sum

/-- The resource data of all the scaling plans on a list of pages, page by
page and in the order of each page. -/
def planData (pages : List DescribeScalingPlansOutput) : List ScalingPlanData :=
  (pages.map (fun p => p.ScalingPlans.map scalingPlanData)).flatten

/-- The requests the loop makes while it walks through pages that all have a
next token, starting with `input`. -/
def requestsFor (input : DescribeScalingPlansInput) :
    List DescribeScalingPlansOutput → List DescribeScalingPlansInput
  | [] => []
  | p :: ps => input :: requestsFor { input with NextToken := p.NextToken } ps

/-- The request the loop makes after it walked through pages that all have a
next token, starting with `input`. -/
def requestAfter (input : DescribeScalingPlansInput) :
    List DescribeScalingPlansOutput → DescribeScalingPlansInput
  | [] => input
  | p :: ps => requestAfter { input with NextToken := p.NextToken } ps

/-- A sample first page: two scaling plans and the next token `t1`. -/
def samplePage1 : DescribeScalingPlansOutput :=
  { NextToken := some "t1",
    ScalingPlans :=
      [{ ScalingPlanName := some "a", ScalingPlanVersion := some 1, StatusCode := none },
       { ScalingPlanName := some "b", ScalingPlanVersion := none, StatusCode := none }] }

/-- A sample last page: one scaling plan and no next token. -/
def samplePage2 : DescribeScalingPlansOutput :=
  { NextToken := none,
    ScalingPlans :=
      [{ ScalingPlanName := none, ScalingPlanVersion := some 3, StatusCode := none }] }

/-- A sample `SkipSweepError`: only the SDK error `UnsupportedOperation` is
skippable. -/
def sampleSkip (err : Option GoError) : Bool :=
  match err with
  | some (GoError.sdk code _) => code == "UnsupportedOperation"
  | _ => false

/-! ## `lbListenerARNFromRuleARN` (tested in `aws/resource_aws_lb_listener_rule_test.go`) -/

/-- Modelled from the spec: the function `lbListenerARNFromRuleARN`, whose
declaration is in `aws/resource_aws_lb_listener_rule.go`, which is missing
(only its test `TestLBListenerARNFromRuleARN` is there).  A listener rule ARN is `arn`, partition,
service, region and account separated by `:`, followed by the resource
`listener-rule/<type>/<name>/<lb-id>/<listener-id>/<rule-id>`; it is mapped to
the same ARN with `listener-rule` replaced by `listener` and the final
`/<rule-id>` segment removed.  Every other input is mapped to the empty
string. -/
def lbListenerARNFromRuleARN (ruleArn : String) : String :=
  match stringsSplit ruleArn ':' with
  | [scheme, partition, service, region, account, resource] =>
    match stringsSplit resource '/' with
    | [kind, lbType, name, lbID, listenerID, _ruleID] =>
      if scheme = "arn" ∧ kind = "listener-rule" then
        stringsJoin
          [scheme, partition, service, region, account,
            stringsJoin ["listener", lbType, name, lbID, listenerID] "/"] ":"
      else ""
    | _ => ""
  | _ => ""

/-! ## `internal/service/chime/voice_connector_streaming_test.go` -/

/-- SDK `terraform.ResourceState` as far as the destroy check reads it: the
resource type `rs.Type` (here `Type_`, `Type` being reserved) and the ID of the
primary instance `rs.Primary.ID`. -/
structure ResourceState where
  Type_ : String
  PrimaryID : String
deriving DecidableEq, Repr

/-- SDK `chime.StreamingConfiguration` (pointer fields). -/
structure StreamingConfiguration where
  DataRetentionInHours : Option Int
  Disabled : Option Bool
deriving DecidableEq, Repr

/-- SDK `chime.GetVoiceConnectorStreamingConfigurationInput`. -/
structure GetVoiceConnectorStreamingConfigurationInput where
  VoiceConnectorId : Option String
deriving DecidableEq, Repr

/-- SDK `chime.GetVoiceConnectorStreamingConfigurationOutput`. -/
structure GetVoiceConnectorStreamingConfigurationOutput where
  StreamingConfiguration : Option StreamingConfiguration
deriving DecidableEq, Repr

/-- SDK constant `chime.ErrCodeNotFoundException`. -/
def ErrCodeNotFoundException : String := "NotFoundException"

/-- Go `errors.As(err, &awsErr)` for `awserr.Error`: the code and message of
the first SDK error in the chain of wrapped errors. -/
def GoError.asAwsErr : GoError → Option (String × String)
  | GoError.sdk code message => some (code, message)
  | GoError.errorf _ => none
  | GoError.wrapf _ inner => inner.asAwsErr

/-- Go `strings.Contains(s, substr)`: `substr` starts at some position of `s`. -/
def stringsContains (s : String) (substr : String) : Bool :=
  s.data.tails.any (fun t => substr.data.isPrefixOf t)

/-- Library `tfawserr.ErrMessageContains(err, code, message)`: the error is an
SDK error with that code whose message contains `message`. -/
def ErrMessageContains (err : Option GoError) (code : String) (message : String) : Bool :=
  match err with
  | none => false
  | some e =>
    match e.asAwsErr with
    | some (c, m) => c == code && stringsContains m message
    | none => false

/-- Go `testAccCheckAWSChimeVoiceConnectorStreamingDestroy` over the resources
of the root module, in the order the `range` visits them: a resource whose
type is not `aws_chime_voice_connector_termination` is passed over; for the
others the streaming configuration is fetched, a not-found error passes the
resource, any other error is returned, and a configuration that is still
there fails the check. -/
def testAccCheckAWSChimeVoiceConnectorStreamingDestroy {σ : Type}
    (GetVoiceConnectorStreamingConfiguration :
      GetVoiceConnectorStreamingConfigurationInput → σ →
        (Option GetVoiceConnectorStreamingConfigurationOutput × Option GoError) × σ) :
    List ResourceState → σ → Option GoError × σ
  | [], w => (none, w)
  | rs :: rest, w =>
    if rs.Type_ ≠ "aws_chime_voice_connector_termination" then
      testAccCheckAWSChimeVoiceConnectorStreamingDestroy
        GetVoiceConnectorStreamingConfiguration rest w
    else
      let input : GetVoiceConnectorStreamingConfigurationInput :=
        { VoiceConnectorId := awsString rs.PrimaryID }
      let r := GetVoiceConnectorStreamingConfiguration input w
      let resp := r.1.1
      let err := r.1.2
      if ErrMessageContains err ErrCodeNotFoundException "" then
        testAccCheckAWSChimeVoiceConnectorStreamingDestroy
          GetVoiceConnectorStreamingConfiguration rest r.2
      else
        match err with
        | some e => (some e, r.2)
        | none =>
          match resp with
          | some out =>
            if out.StreamingConfiguration ≠ none then
              (some (GoError.errorf
                "error Chime Voice Connector streaming configuration still exists"), r.2)
            else
              testAccCheckAWSChimeVoiceConnectorStreamingDestroy
                GetVoiceConnectorStreamingConfiguration rest r.2
          | none =>
            testAccCheckAWSChimeVoiceConnectorStreamingDestroy
              GetVoiceConnectorStreamingConfiguration rest r.2

/-- A Chime connection on which every voice connector still has a streaming
configuration; it counts the calls it receives. -/
def streamingStillThere (_input : GetVoiceConnectorStreamingConfigurationInput) (calls : Nat) :
    (Option GetVoiceConnectorStreamingConfigurationOutput × Option GoError) × Nat :=
  let config : StreamingConfiguration := { DataRetentionInHours := some 5, Disabled := some false }
  ((some { StreamingConfiguration := some config }, none), calls + 1)

/-! ### Sample transit gateway data -/

/-- A sample filter of the configuration: gateways in the state `available`. -/
def sampleFilter : List FilterBlock := [{ name := "state", values := ["available"] }]

/-- The resource data of a data source before the read: nothing set but the
attribute `id`. -/
def transitGatewayDataWithId (id : String) : TransitGatewayData :=
  { Id := "", amazon_side_asn := none, arn := none,
    association_default_route_table_id := none, auto_accept_shared_attachments := none,
    default_route_table_association := none, default_route_table_propagation := none,
    description := none, dns_support := none, filter := [], id := id, owner_id := none,
    propagation_default_route_table_id := none, tags := [], vpn_ecmp_support := none }

/-- A sample transit gateway with options. -/
def sampleTransitGateway : TransitGateway :=
  { Description := some "core", 
    Options := some
      { AmazonSideAsn := some 64512, AssociationDefaultRouteTableId := some "rtb-1",
        AutoAcceptSharedAttachments := some "disable",
        DefaultRouteTableAssociation := some "enable",
        DefaultRouteTablePropagation := some "enable", DnsSupport := some "enable",
        PropagationDefaultRouteTableId := some "rtb-2", VpnEcmpSupport := some "enable" },
    OwnerId := some "123456789012", State := some "available", Tags := [],
    TransitGatewayArn := some "arn:aws:ec2:us-east-1:123456789012:transit-gateway/tgw-1",
    TransitGatewayId := some "tgw-1" }

/-- A client whose EC2 connection answers every describe call with the given
pair and logs the request. -/
def loggingEc2Client (r : Option DescribeTransitGatewaysOutput × Option GoError) :
    AWSClient (List DescribeTransitGatewaysInput) Unit :=
  { ec2conn := fun input log => (r, log ++ [input]), IgnoreTagsConfig := () }

/-! ## Lemmas on splitting and joining -/

theorem splitAux_nosep (sep : Char) (a : List Char) (h : sep ∉ a) :
    splitAux sep a = (a, []) := by
  induction a with
  | nil => rfl
  | cons c cs ih =>
    have hc : c ≠ sep := fun e => h (by simp [e])
    have hcs : sep ∉ cs := fun e => h (List.mem_cons_of_mem _ e)
    simp [splitAux, ih hcs, hc]

theorem splitChars_nosep (sep : Char) (a : List Char) (h : sep ∉ a) :
    splitChars sep a = [a] := by
  simp [splitChars, splitAux_nosep sep a h]

theorem splitAux_append (sep : Char) (a b : List Char) (h : sep ∉ a) :
    splitAux sep (a ++ sep :: b) = (a, splitChars sep b) := by
  induction a with
  | nil => simp [splitAux, splitChars]
  | cons c cs ih =>
    have hc : c ≠ sep := fun e => h (by simp [e])
    have hcs : sep ∉ cs := fun e => h (List.mem_cons_of_mem _ e)
    simp [splitAux, ih hcs, hc]

theorem splitChars_append (sep : Char) (a b : List Char) (h : sep ∉ a) :
    splitChars sep (a ++ sep :: b) = a :: splitChars sep b := by
  simp [splitChars, splitAux_append sep a b h]

theorem splitChars_cons_sep (sep : Char) (cs : List Char) :
    splitChars sep (sep :: cs) = [] :: splitChars sep cs := by
  simp [splitChars, splitAux]

theorem splitChars_cons_ne (sep c : Char) (cs : List Char) (h : c ≠ sep) :
    splitChars sep (c :: cs) = (c :: (splitAux sep cs).1) :: (splitAux sep cs).2 := by
  simp [splitChars, splitAux, h]

theorem splitChars_length (sep : Char) (l : List Char) :
    (splitChars sep l).length = l.count sep + 1 := by
  induction l with
  | nil => rfl
  | cons c cs ih =>
    by_cases hc : c = sep
    · subst hc
      rw [splitChars_cons_sep]
      simp [ih]
    · rw [splitChars_cons_ne sep c cs hc]
      have : (splitChars sep cs).length = (splitAux sep cs).2.length + 1 := by
        simp [splitChars]
      rw [List.count_cons_of_ne (Ne.symm hc)] 
      simp at *
      omega

theorem joinChars_cons (sep a : List Char) (rest : List (List Char)) (h : rest ≠ []) :
    joinChars sep (a :: rest) = a ++ sep ++ joinChars sep rest := by
  cases rest with
  | nil => exact absurd rfl h
  | cons b r => rfl

theorem joinChars_splitChars (sep : Char) (l : List Char) :
    joinChars [sep] (splitChars sep l) = l := by
  induction l with
  | nil => rfl
  | cons c cs ih =>
    by_cases hc : c = sep
    · subst hc
      rw [splitChars_cons_sep, joinChars_cons _ _ _ (by simp [splitChars]), ih]
      rfl
    · rw [splitChars_cons_ne sep c cs hc]
      have e : splitChars sep cs = (splitAux sep cs).1 :: (splitAux sep cs).2 := rfl
      rw [e] at ih
      cases h2 : (splitAux sep cs).2 with
      | nil => rw [h2] at ih; simp [joinChars] at ih ⊢; exact ih
      | cons b r =>
        rw [h2] at ih
        simp [joinChars] at ih ⊢
        exact ih

theorem splitChars_mem_nosep (sep : Char) (l p : List Char) (h : p ∈ splitChars sep l) :
    sep ∉ p := by
  induction l generalizing p with
  | nil => simp [splitChars, splitAux] at h; simp [h]
  | cons c cs ih =>
    by_cases hc : c = sep
    · subst hc
      rw [splitChars_cons_sep] at h
      rcases List.mem_cons.1 h with h | h
      · simp [h]
      · exact ih p h
    · rw [splitChars_cons_ne sep c cs hc] at h
      rcases List.mem_cons.1 h with h | h
      · subst h
        have := ih (splitAux sep cs).1 (by simp [splitChars])
        intro hm
        rcases List.mem_cons.1 hm with hm | hm
        · exact hc hm.symm
        · exact this hm
      · exact ih p (by simp [splitChars, h])

theorem splitChars_mem_subset (sep : Char) (l p : List Char) (h : p ∈ splitChars sep l) :
    ∀ c ∈ p, c ∈ l := by
  induction l generalizing p with
  | nil => simp [splitChars, splitAux] at h; simp [h]
  | cons c cs ih =>
    by_cases hc : c = sep
    · subst hc
      rw [splitChars_cons_sep] at h
      rcases List.mem_cons.1 h with h | h
      · simp [h]
      · intro x hx; exact List.mem_cons_of_mem _ (ih p h x hx)
    · rw [splitChars_cons_ne sep c cs hc] at h
      rcases List.mem_cons.1 h with h | h
      · subst h
        intro x hx
        rcases List.mem_cons.1 hx with hx | hx
        · simp [hx]
        · exact List.mem_cons_of_mem _ (ih (splitAux sep cs).1 (by simp [splitChars]) x hx)
      · intro x hx; exact List.mem_cons_of_mem _ (ih p (by simp [splitChars, h]) x hx)


theorem bufferChars_eq_join (vs : List (List Char)) (h : vs ≠ []) :
    bufferChars vs = joinChars ['#'] vs ++ ['#'] := by
  induction vs with
  | nil => exact absurd rfl h
  | cons v rest ih =>
    cases rest with
    | nil => simp [bufferChars, joinChars]
    | cons b r =>
      simp only [bufferChars] at ih ⊢
      rw [ih (by simp)]
      simp [joinChars]

theorem splitChars_joinChars (sep : Char) (vs : List (List Char)) (h : vs ≠ [])
    (hv : ∀ v ∈ vs, sep ∉ v) : splitChars sep (joinChars [sep] vs) = vs := by
  induction vs with
  | nil => exact absurd rfl h
  | cons v rest ih =>
    cases rest with
    | nil => simpa [joinChars] using splitChars_nosep sep v (hv v (by simp))
    | cons b r =>
      have e : joinChars [sep] (v :: b :: r) = v ++ sep :: joinChars [sep] (b :: r) := by
        simp [joinChars]
      rw [e, splitChars_append sep _ _ (hv v (by simp)),
        ih (by simp) (fun x hx => hv x (List.mem_cons_of_mem _ hx))]

theorem joinChars_head (sep : List Char) (vs : List (List Char)) (h : vs ≠ [])
    (c : Char) (t : List Char) (hh : vs.head h = c :: t) :
    ∃ t2, joinChars sep vs = c :: t2 := by
  cases vs with
  | nil => exact absurd rfl h
  | cons v rest =>
    simp at hh
    subst hh
    cases rest with
    | nil => exact ⟨t, rfl⟩
    | cons b r => exact ⟨_, rfl⟩

theorem joinChars_getLast (sep : List Char) (vs : List (List Char)) (h : vs ≠ [])
    (c : Char) (t : List Char) (hh : vs.getLast h = t ++ [c]) :
    ∃ t2, joinChars sep vs = t2 ++ [c] := by
  induction vs with
  | nil => exact absurd rfl h
  | cons v rest ih =>
    cases rest with
    | nil => simp at hh; exact ⟨t, hh⟩
    | cons b r =>
      have hh2 : (b :: r).getLast (by simp) = t ++ [c] := by
        simpa [List.getLast_cons] using hh
      obtain ⟨t2, ht2⟩ := ih (by simp) hh2
      refine ⟨v ++ sep ++ t2, ?_⟩
      simp [joinChars, ht2]

theorem trimChars_bufferChars (vs : List (List Char)) (h : vs ≠ [])
    (hv : ∀ v ∈ vs, '#' ∉ v) (hfirst : vs.head h ≠ []) (hlast : vs.getLast h ≠ []) :
    trimChars '#' (bufferChars vs) = joinChars ['#'] vs := by
  rw [bufferChars_eq_join vs h]
  -- the joined text starts and ends with a character other than `#`
  obtain ⟨c, t, hct⟩ := List.exists_cons_of_ne_nil hfirst
  have hc : c ≠ '#' := by
    intro e
    have := hv _ (List.head_mem h)
    rw [hct, e] at this
    exact this (by simp)
  obtain ⟨t2, ht2⟩ := joinChars_head ['#'] vs h c t hct
  obtain ⟨t3, d, hdt⟩ : ∃ t3 d, vs.getLast h = t3 ++ [d] :=
    ⟨_, _, (List.dropLast_append_getLast hlast).symm⟩
  have hd : d ≠ '#' := by
    intro e
    have := hv _ (List.getLast_mem h)
    rw [hdt, e] at this
    exact this (by simp)
  obtain ⟨t4, ht4⟩ := joinChars_getLast ['#'] vs h d t3 hdt
  have e1 : (joinChars ['#'] vs ++ ['#']).dropWhile (fun c => c == '#')
      = joinChars ['#'] vs ++ ['#'] := by
    have hb : (c == '#') = false := by simp [hc]
    rw [ht2]
    simp [List.dropWhile, hb]
  unfold trimChars
  have hb : (d == '#') = false := by simp [hd]
  rw [e1, ht4]
  simp [List.dropWhile, hb]


theorem mem_joinChars (sep : List Char) (vs : List (List Char)) (c : Char)
    (h : c ∈ joinChars sep vs) : c ∈ sep ∨ ∃ v ∈ vs, c ∈ v := by
  induction vs with
  | nil => simp [joinChars] at h
  | cons v rest ih =>
    cases rest with
    | nil => exact Or.inr ⟨v, by simp, by simpa [joinChars] using h⟩
    | cons b r =>
      simp only [joinChars, List.mem_append] at h
      rcases h with (h | h) | h
      · exact Or.inr ⟨v, by simp, h⟩
      · exact Or.inl h
      · rcases ih h with h | ⟨w, hw, hcw⟩
        · exact Or.inl h
        · exact Or.inr ⟨w, List.mem_cons_of_mem _ hw, hcw⟩

theorem stringsJoin_data (vs : List String) (sep : String) :
    (stringsJoin vs sep).data = joinChars sep.data (vs.map String.data) := by
  induction vs with
  | nil => rfl
  | cons v rest ih =>
    cases rest with
    | nil => rfl
    | cons b r =>
      simp only [stringsJoin, String.data_append, List.map, joinChars] at ih ⊢
      rw [ih]

theorem map_mk_map_data (vs : List String) :
    (vs.map String.data).map String.mk = vs := by
  induction vs with
  | nil => rfl
  | cons v rest ih => simp only [List.map]; rw [ih]

theorem stringifyPartition_fold (vs : List String) (buf : String) :
    (vs.map PartValue.str).foldl
      (fun (b : Option String) (val : PartValue) =>
        match b, val with
        | some buf, PartValue.str s => some (buf ++ (s ++ "#"))
        | _, _ => none) (some buf)
      = some (buf ++ String.mk (bufferChars (vs.map String.data))) := by
  induction vs generalizing buf with
  | nil =>
    simp only [List.map, List.foldl, bufferChars]
    congr 1
    apply String.ext
    simp
  | cons v rest ih =>
    simp only [List.map, List.foldl, bufferChars]
    rw [ih]
    congr 1
    apply String.ext
    simp [String.data_append]

theorem stringifyPartition_strings (vs : List String) :
    stringifyPartition (vs.map PartValue.str)
      = some (String.mk (trimChars '#' (bufferChars (vs.map String.data)))) := by
  unfold stringifyPartition
  simp only []
  rw [stringifyPartition_fold]
  simp [stringsTrim, String.data_append]

theorem splitChars_four (a b c d : List Char) (ha : ':' ∉ a) (hb : ':' ∉ b)
    (hc : ':' ∉ c) (hd : ':' ∉ d) :
    splitChars ':' (a ++ ':' :: (b ++ ':' :: (c ++ ':' :: d))) = [a, b, c, d] := by
  rw [splitChars_append _ _ _ ha, splitChars_append _ _ _ hb, splitChars_append _ _ _ hc,
    splitChars_nosep _ _ hd]

theorem readPartitionID_of_parts (a b c d : List Char) (ha : ':' ∉ a) (hb : ':' ∉ b)
    (hc : ':' ∉ c) (hd : ':' ∉ d) :
    readPartitionID (String.mk a ++ ":" ++ String.mk b ++ ":" ++ String.mk c ++ ":" ++ String.mk d)
      = { catalogID := String.mk a, dbName := String.mk b, tableName := String.mk c,
          values := (splitChars '#' d).map String.mk, error := none } := by
  have e : (String.mk a ++ ":" ++ String.mk b ++ ":" ++ String.mk c ++ ":" ++ String.mk d).data
      = a ++ ':' :: (b ++ ':' :: (c ++ ':' :: d)) := by
    simp [String.data_append]
  unfold readPartitionID stringsSplit
  rw [e, splitChars_four a b c d ha hb hc hd]
  rfl

/-- Claim C1 (partition ID round trip).  For names without `:` and a non-empty
list of string values, none containing `:` or `#`, whose first and last values
are non-empty, `createPartitionID` returns the names and the values joined
with `#`, separated by `:`, and `readPartitionID` on that id returns exactly
the names and the values with a nil error. -/
theorem readPartitionID_createPartitionID (catalogID dbName tableName : String)
    (values : List String)
    (hc : ':' ∉ catalogID.data) (hd : ':' ∉ dbName.data) (ht : ':' ∉ tableName.data)
    (hne : values ≠ [])
    (hv : ∀ v ∈ values, ':' ∉ v.data ∧ '#' ∉ v.data)
    (hfirst : values.head hne ≠ "") (hlast : values.getLast hne ≠ "") :
    createPartitionID catalogID dbName tableName (values.map PartValue.str) =
      some (catalogID ++ ":" ++ dbName ++ ":" ++ tableName ++ ":" ++ stringsJoin values "#") ∧
    readPartitionID
        (catalogID ++ ":" ++ dbName ++ ":" ++ tableName ++ ":" ++ stringsJoin values "#") =
      { catalogID := catalogID, dbName := dbName, tableName := tableName,
        values := values, error := none } := by
  have hne2 : values.map String.data ≠ [] := by simpa using hne
  have hv2 : ∀ v ∈ values.map String.data, '#' ∉ v := by
    intro v hm
    obtain ⟨w, hw, rfl⟩ := List.mem_map.1 hm
    exact (hv w hw).2
  have hf2 : (values.map String.data).head hne2 ≠ [] := by
    intro e
    apply hfirst
    apply String.ext
    rw [List.head_map] at e
    exact e
  have hl2 : (values.map String.data).getLast hne2 ≠ [] := by
    intro e
    apply hlast
    apply String.ext
    rw [List.getLast_map] at e
    exact e
  have hJ : ':' ∉ joinChars ['#'] (values.map String.data) := by
    intro hm
    rcases mem_joinChars _ _ _ hm with h | ⟨v, hvm, hcv⟩
    · simp at h
    · obtain ⟨w, hw, rfl⟩ := List.mem_map.1 hvm
      exact (hv w hw).1 hcv
  have hjoin : stringsJoin values "#" = String.mk (joinChars ['#'] (values.map String.data)) := by
    apply String.ext
    rw [stringsJoin_data]
  rw [hjoin]
  constructor
  · unfold createPartitionID
    rw [stringifyPartition_strings, trimChars_bufferChars _ hne2 hv2 hf2 hl2]
    rfl
  · have := readPartitionID_of_parts catalogID.data dbName.data tableName.data
      (joinChars ['#'] (values.map String.data)) hc hd ht hJ
    rw [splitChars_joinChars '#' _ hne2 hv2, map_mk_map_data] at this
    exact this

/-- Witness of C1 at catalog `123`, database `db`, table `tbl` and the values
`2021`, the empty string and `us`. -/
theorem readPartitionID_createPartitionID_witness :
    (':' ∉ "123".data ∧ ':' ∉ "db".data ∧ ':' ∉ "tbl".data) ∧
    (createPartitionID "123" "db" "tbl" (["2021", "", "us"].map PartValue.str) =
        some ("123" ++ ":" ++ "db" ++ ":" ++ "tbl" ++ ":" ++ stringsJoin ["2021", "", "us"] "#") ∧
      readPartitionID
          ("123" ++ ":" ++ "db" ++ ":" ++ "tbl" ++ ":" ++ stringsJoin ["2021", "", "us"] "#") =
        { catalogID := "123", dbName := "db", tableName := "tbl",
          values := ["2021", "", "us"], error := none }) :=
  ⟨by decide,
    readPartitionID_createPartitionID "123" "db" "tbl" ["2021", "", "us"]
      (by decide) (by decide) (by decide) (by decide) (by decide) (by decide) (by decide)⟩

theorem readPartitionID_cases (id : String) :
    (∃ p0 p1 p2 p3, splitChars ':' id.data = [p0, p1, p2, p3] ∧
      readPartitionID id =
        { catalogID := String.mk p0, dbName := String.mk p1, tableName := String.mk p2,
          values := (splitChars '#' p3).map String.mk, error := none }) ∨
    ((splitChars ':' id.data).length ≠ 4 ∧
      readPartitionID id =
        { catalogID := "", dbName := "", tableName := "", values := [],
          error := some (GoError.errorf (readPartitionIDMessage id)) }) := by
  unfold readPartitionID stringsSplit
  rcases h : splitChars ':' id.data with _ | ⟨p0, _ | ⟨p1, _ | ⟨p2, _ | ⟨p3, _ | ⟨p4, r⟩⟩⟩⟩⟩
  · right; simp
  · right; simp
  · right; simp
  · right; simp
  · left; exact ⟨p0, p1, p2, p3, rfl, rfl⟩
  · right; simp

theorem readPartitionID_fails_iff_length (id : String) :
    (readPartitionID id).error ≠ none ↔ (stringsSplit id ':').length ≠ 4 := by
  have hl : (stringsSplit id ':').length = (splitChars ':' id.data).length := by
    simp [stringsSplit]
  rw [hl]
  rcases readPartitionID_cases id with ⟨p0, p1, p2, p3, hs, hr⟩ | ⟨hlen, hr⟩
  · rw [hr, hs]; simp
  · rw [hr]; simp [hlen]

/-- Claim C2 (failure of `readPartitionID`).  The error is non-nil exactly when
splitting the id on `:` does not give four parts, which is exactly when the id
does not contain three `:`; in that case the three names are empty, the list
of values is empty, and the message of the error contains the expected format
`catalog-id:database-name:table-name:values` and the id received. -/
theorem readPartitionID_error (id : String) :
    ((readPartitionID id).error ≠ none ↔ (stringsSplit id ':').length ≠ 4) ∧
    ((stringsSplit id ':').length ≠ 4 ↔ id.data.count ':' ≠ 3) ∧
    ((readPartitionID id).error ≠ none →
      readPartitionID id =
        { catalogID := "", dbName := "", tableName := "", values := [],
          error := some (GoError.errorf
            ("expected ID in format catalog-id:database-name:table-name:values, received: "
              ++ id)) } ∧
      ∀ e, (readPartitionID id).error = some e →
        "catalog-id:database-name:table-name:values".data <:+: e.Error.data ∧
        id.data <:+: e.Error.data) := by
  refine ⟨readPartitionID_fails_iff_length id, ?_, ?_⟩
  · have hl : (stringsSplit id ':').length = (splitChars ':' id.data).length := by
      simp [stringsSplit]
    rw [hl, splitChars_length]
    omega
  · intro herr
    rcases readPartitionID_cases id with ⟨p0, p1, p2, p3, _, hr⟩ | ⟨_, hr⟩
    · rw [hr] at herr; exact absurd rfl herr
    · refine ⟨hr, ?_⟩
      intro e he
      rw [hr] at he
      simp only [Option.some.injEq] at he
      subst he
      simp only [GoError.Error, readPartitionIDMessage, String.data_append]
      constructor
      · exact ⟨"expected ID in format ".data, ", received: ".data ++ id.data, by simp⟩
      · exact (List.suffix_append _ _).isInfix

/-- Claim C3 (what a successful `readPartitionID` returns).  When the error is
nil, the id is the three names and the values joined with `#`, separated by
`:`; no name contains `:` and no value contains `:` or `#`. -/
theorem readPartitionID_success (id : String) (h : (readPartitionID id).error = none) :
    id = (readPartitionID id).catalogID ++ ":" ++ (readPartitionID id).dbName ++ ":" ++
        (readPartitionID id).tableName ++ ":" ++ stringsJoin (readPartitionID id).values "#" ∧
    ':' ∉ (readPartitionID id).catalogID.data ∧
    ':' ∉ (readPartitionID id).dbName.data ∧
    ':' ∉ (readPartitionID id).tableName.data ∧
    ∀ v ∈ (readPartitionID id).values, ':' ∉ v.data ∧ '#' ∉ v.data := by
  rcases readPartitionID_cases id with ⟨p0, p1, p2, p3, hs, hr⟩ | ⟨_, hr⟩
  · have hj := joinChars_splitChars ':' id.data
    rw [hs] at hj
    have hm : ∀ p ∈ [p0, p1, p2, p3], ':' ∉ p := by
      intro p hp
      exact splitChars_mem_nosep ':' id.data p (hs ▸ hp)
    rw [hr]
    refine ⟨?_, hm p0 (by simp), hm p1 (by simp), hm p2 (by simp), ?_⟩
    · apply String.ext
      simp only [String.data_append, stringsJoin_data, List.map_map]
      have e : (List.map (String.data ∘ String.mk) (splitChars '#' p3)) = splitChars '#' p3 := by
        simp [Function.comp_def]
      rw [e, joinChars_splitChars '#' p3]
      rw [← hj]
      simp [joinChars]
    · intro v hv
      obtain ⟨w, hw, rfl⟩ := List.mem_map.1 hv
      refine ⟨?_, splitChars_mem_nosep '#' p3 w hw⟩
      intro hc
      exact hm p3 (by simp) (splitChars_mem_subset '#' p3 w hw _ hc)
  · rw [hr] at h; simp at h


/-! ## AppStream finders -/

theorem findStackByName_eq {σ : Type} (conn : AppStream σ) (name : String) (w : σ) :
    findStackByName conn name w =
      (match (conn.DescribeStacksWithContext { Names := [some name], NextToken := none } w).1.2,
          (conn.DescribeStacksWithContext { Names := [some name], NextToken := none } w).1.1.Stacks with
        | some err, _ => (none, some err)
        | none, [] => (none, none)
        | none, [s] => (s, none)
        | none, _ :: _ :: _ =>
          (none, some (GoError.errorf ("got more than one stack with the name " ++ name))),
       (conn.DescribeStacksWithContext { Names := [some name], NextToken := none } w).2) := by
  unfold findStackByName awsString
  simp only []
  rcases conn.DescribeStacksWithContext { Names := [some name], NextToken := none } w with
    ⟨⟨out, err⟩, w1⟩
  cases err with
  | some e => rfl
  | none =>
    rcases out with ⟨_ | ⟨s, _ | ⟨t, r⟩⟩, tok⟩
    · rfl
    · rfl
    · simp

theorem findFleetByName_eq {σ : Type} (conn : AppStream σ) (name : String) (w : σ) :
    findFleetByName conn name w =
      (match (conn.DescribeFleetsWithContext { Names := [some name], NextToken := none } w).1.2,
          (conn.DescribeFleetsWithContext { Names := [some name], NextToken := none } w).1.1.Fleets with
        | some err, _ => (none, some err)
        | none, [] => (none, none)
        | none, [s] => (s, none)
        | none, _ :: _ :: _ =>
          (none, some (GoError.errorf ("got more than one fleet with the name " ++ name))),
       (conn.DescribeFleetsWithContext { Names := [some name], NextToken := none } w).2) := by
  unfold findFleetByName awsString
  simp only []
  rcases conn.DescribeFleetsWithContext { Names := [some name], NextToken := none } w with
    ⟨⟨out, err⟩, w1⟩
  cases err with
  | some e => rfl
  | none =>
    rcases out with ⟨_ | ⟨s, _ | ⟨t, r⟩⟩, tok⟩
    · rfl
    · rfl
    · simp

/-- Claim C4 (normalized not-found).  When the describe call succeeds and
returns zero stacks, `findStackByName` returns the nil stack and the nil
error; likewise `findFleetByName` when the call returns zero fleets. -/
theorem find_not_found {σ : Type} (conn : AppStream σ) (name : String) (w : σ) :
    (∀ out w1, conn.DescribeStacksWithContext { Names := [some name], NextToken := none } w
          = ((out, none), w1) → out.Stacks = [] →
        findStackByName conn name w = ((none, none), w1)) ∧
    (∀ out w1, conn.DescribeFleetsWithContext { Names := [some name], NextToken := none } w
          = ((out, none), w1) → out.Fleets = [] →
        findFleetByName conn name w = ((none, none), w1)) := by
  constructor
  · intro out w1 h h0
    rw [findStackByName_eq, h]
    simp [h0]
  · intro out w1 h h0
    rw [findFleetByName_eq, h]
    simp [h0]


/-- Claim C5 (errors of the finders).  `findStackByName` returns a non-nil
error exactly when the describe call failed or returned more than one stack; a
describe error is returned unchanged; and with an error the stack returned is
nil.  The same holds of `findFleetByName`. -/
theorem find_error_iff {σ : Type} (conn : AppStream σ) (name : String) (w : σ) :
    (∀ out derr w1,
      conn.DescribeStacksWithContext { Names := [some name], NextToken := none } w
          = ((out, derr), w1) →
        ((findStackByName conn name w).1.2 ≠ none ↔ (derr ≠ none ∨ 1 < out.Stacks.length)) ∧
        (derr ≠ none → (findStackByName conn name w).1.2 = derr) ∧
        ((findStackByName conn name w).1.2 ≠ none → (findStackByName conn name w).1.1 = none)) ∧
    (∀ out derr w1,
      conn.DescribeFleetsWithContext { Names := [some name], NextToken := none } w
          = ((out, derr), w1) →
        ((findFleetByName conn name w).1.2 ≠ none ↔ (derr ≠ none ∨ 1 < out.Fleets.length)) ∧
        (derr ≠ none → (findFleetByName conn name w).1.2 = derr) ∧
        ((findFleetByName conn name w).1.2 ≠ none → (findFleetByName conn name w).1.1 = none)) := by
  constructor
  · intro out derr w1 h
    rw [findStackByName_eq, h]
    cases derr with
    | some e => simp
    | none =>
      rcases out with ⟨_ | ⟨s, _ | ⟨t, r⟩⟩, tok⟩ <;> simp
  · intro out derr w1 h
    rw [findFleetByName_eq, h]
    cases derr with
    | some e => simp
    | none =>
      rcases out with ⟨_ | ⟨s, _ | ⟨t, r⟩⟩, tok⟩ <;> simp

/-- Claim C6 (retrieval).  When the describe call succeeds and returns exactly
one stack, `findStackByName` returns that element and the nil error; likewise
`findFleetByName` for exactly one fleet. -/
theorem find_single {σ : Type} (conn : AppStream σ) (name : String) (w : σ) :
    (∀ out w1 s, conn.DescribeStacksWithContext { Names := [some name], NextToken := none } w
          = ((out, none), w1) → out.Stacks = [s] →
        findStackByName conn name w = ((s, none), w1)) ∧
    (∀ out w1 f, conn.DescribeFleetsWithContext { Names := [some name], NextToken := none } w
          = ((out, none), w1) → out.Fleets = [f] →
        findFleetByName conn name w = ((f, none), w1)) := by
  constructor
  · intro out w1 s h h1
    rw [findStackByName_eq, h]
    simp [h1]
  · intro out w1 s h h1
    rw [findFleetByName_eq, h]
    simp [h1]

/-! ## AppStream status functions -/

/-- Claim C7 (states of `statusStackState`).  When the finder fails, the
refresh function returns the nil result, state `Unknown` and the finder's
error; when the finder returns no stack, state `NotFound` and the nil error;
when it returns a stack, that stack, state `AVAILABLE` and the nil error.  The
state is always one of the three, and the error is non-nil exactly when the
state is `Unknown`. -/
theorem statusStackState_cases {σ : Type} (conn : AppStream σ) (name : String) (w : σ) :
    (∀ stack e w1, findStackByName conn name w = ((stack, some e), w1) →
      statusStackState conn name w = ((GoAny.nil, "Unknown", some e), w1)) ∧
    (∀ w1, findStackByName conn name w = ((none, none), w1) →
      statusStackState conn name w = ((GoAny.stack none, "NotFound", none), w1)) ∧
    (∀ s w1, findStackByName conn name w = ((some s, none), w1) →
      statusStackState conn name w = ((GoAny.stack (some s), "AVAILABLE", none), w1)) ∧
    ((statusStackState conn name w).1.2.1 = "Unknown" ∨
      (statusStackState conn name w).1.2.1 = "NotFound" ∨
      (statusStackState conn name w).1.2.1 = "AVAILABLE") ∧
    ((statusStackState conn name w).1.2.2 ≠ none ↔
      (statusStackState conn name w).1.2.1 = "Unknown") := by
  unfold statusStackState
  simp only []
  rcases findStackByName conn name w with ⟨⟨stack, err⟩, w1⟩
  refine ⟨?_, ?_, ?_, ?_, ?_⟩
  · intro st e w2 h
    cases h
    rfl
  · intro w2 h
    cases h
    rfl
  · intro s w2 h
    cases h
    rfl
  · cases err with
    | some e => simp
    | none => cases stack <;> simp
  · cases err with
    | some e => simp
    | none => cases stack <;> simp

/-- Claim C8 (states of `statusFleetState`).  When the finder returns a fleet,
the refresh function returns that fleet, the nil error and the fleet's `State`
string (empty for a nil pointer); when the finder returns no fleet, state
`NotFound` and the nil error; when the finder fails, the nil result, state
`Unknown` and the finder's error. -/
theorem statusFleetState_cases {σ : Type} (conn : AppStream σ) (name : String) (w : σ) :
    (∀ fleet w1, findFleetByName conn name w = ((some fleet, none), w1) →
      statusFleetState conn name w =
        ((GoAny.fleet (some fleet), awsStringValue fleet.State, none), w1) ∧
      (fleet.State = none → (statusFleetState conn name w).1.2.1 = "") ∧
      (∀ st, fleet.State = some st → (statusFleetState conn name w).1.2.1 = st)) ∧
    (∀ w1, findFleetByName conn name w = ((none, none), w1) →
      statusFleetState conn name w = ((GoAny.fleet none, "NotFound", none), w1)) ∧
    (∀ fleet e w1, findFleetByName conn name w = ((fleet, some e), w1) →
      statusFleetState conn name w = ((GoAny.nil, "Unknown", some e), w1)) := by
  unfold statusFleetState
  simp only []
  rcases findFleetByName conn name w with ⟨⟨fleet, err⟩, w1⟩
  refine ⟨?_, ?_, ?_⟩
  · intro f w2 h
    cases h
    refine ⟨rfl, ?_, ?_⟩
    · intro hs; simp [hs, awsStringValue]
    · intro st hs; simp [hs, awsStringValue]
  · intro w2 h
    cases h
    rfl
  · intro f e w2 h
    cases h
    rfl

/-! ## AppStream waiters -/

/-- Claim C9 (`waitStackStateDeleted` waits for a deleted stack).  For every
polling helper the waiter is one run of the helper on its configuration, whose
target set is `NotFound`, `Unknown` and whose refresh function is
`statusStackState` for the name.  The state reported by a refresh belongs to
the target set with a nil error exactly when the stack was not found: the
finder returned the nil stack and the nil error, that is the describe call
succeeded with no element or with a single nil element; `AVAILABLE`, the state
of an existing stack, is not a target; and `Unknown` is only reported together
with an error.  Hence, on a helper that polls for a number of rounds, the
waiter returns the nil stack and the nil error as soon as the stack is not
found, polls again while the stack is there, ends with the finder's error when
the finder fails, and ends with the helper's timeout when the rounds are used
up. -/
theorem waitStackStateDeleted_target {σ : Type} (WaitForStateContext : WaitForState σ)
    (rounds : Nat) (conn : AppStream σ) (name : String) (w : σ) :
    waitStackStateDeleted WaitForStateContext conn name w =
      (match WaitForStateContext (waitStackStateDeletedConf conn name) w with
        | ((GoAny.stack output, err), w1) => ((output, err), w1)
        | ((_, err), w1) => ((none, err), w1)) ∧
    (waitStackStateDeletedConf conn name).Target = ["NotFound", "Unknown"] ∧
    (waitStackStateDeletedConf conn name).Refresh = statusStackState conn name ∧
    ((((waitStackStateDeletedConf conn name).Refresh w).1.2.1 ∈
          (waitStackStateDeletedConf conn name).Target ∧
        ((waitStackStateDeletedConf conn name).Refresh w).1.2.2 = none) ↔
      (findStackByName conn name w).1 = (none, none)) ∧
    ((findStackByName conn name w).1 = (none, none) ↔
      (conn.DescribeStacksWithContext { Names := [some name], NextToken := none } w).1.2 = none ∧
      ((conn.DescribeStacksWithContext { Names := [some name], NextToken := none } w).1.1.Stacks
          = [] ∨
        (conn.DescribeStacksWithContext { Names := [some name], NextToken := none } w).1.1.Stacks
          = [none])) ∧
    "AVAILABLE" ∉ (waitStackStateDeletedConf conn name).Target ∧
    (∀ s, (findStackByName conn name w).1 = (some s, none) →
      ((waitStackStateDeletedConf conn name).Refresh w).1.2.1 = "AVAILABLE") ∧
    (((waitStackStateDeletedConf conn name).Refresh w).1.2.1 = "Unknown" →
      ((waitStackStateDeletedConf conn name).Refresh w).1.2.2 ≠ none) ∧
    ((findStackByName conn name w).1 = (none, none) →
      waitStackStateDeleted (pollRounds (rounds + 1)) conn name w =
        ((none, none), (findStackByName conn name w).2)) ∧
    (∀ s, (findStackByName conn name w).1 = (some s, none) →
      waitStackStateDeleted (pollRounds (rounds + 1)) conn name w =
        waitStackStateDeleted (pollRounds rounds) conn name (findStackByName conn name w).2) ∧
    (∀ stack e, (findStackByName conn name w).1 = (stack, some e) →
      waitStackStateDeleted (pollRounds (rounds + 1)) conn name w =
        ((none, some e), (findStackByName conn name w).2)) ∧
    waitStackStateDeleted (pollRounds 0) conn name w =
      ((none, some (GoError.errorf "timeout while waiting for state")), w) := by
  have hR : (waitStackStateDeletedConf conn name).Refresh = statusStackState conn name := rfl
  have hT : (waitStackStateDeletedConf conn name).Target = ["NotFound", "Unknown"] := rfl
  refine ⟨?_, rfl, rfl, ?_, ?_, by rw [hT]; decide, ?_, ?_, ?_, ?_, ?_, rfl⟩
  · unfold waitStackStateDeleted
    simp only []
    rcases WaitForStateContext (waitStackStateDeletedConf conn name) w with ⟨⟨out, err⟩, w1⟩
    cases out <;> rfl
  · rw [hR, hT, findStackByName_eq]
    unfold statusStackState
    simp only []
    rw [findStackByName_eq]
    rcases conn.DescribeStacksWithContext { Names := [some name], NextToken := none } w with
      ⟨⟨out, err⟩, w1⟩
    cases err with
    | some e => simp
    | none => rcases out with ⟨_ | ⟨_ | s, _ | ⟨t, r⟩⟩, tok⟩ <;> simp
  · rw [findStackByName_eq]
    rcases conn.DescribeStacksWithContext { Names := [some name], NextToken := none } w with
      ⟨⟨out, err⟩, w1⟩
    cases err with
    | some e => simp
    | none => rcases out with ⟨_ | ⟨s, _ | ⟨t, r⟩⟩, tok⟩ <;> simp
  · intro s
    rw [hR, findStackByName_eq]
    unfold statusStackState
    simp only []
    rw [findStackByName_eq]
    rcases conn.DescribeStacksWithContext { Names := [some name], NextToken := none } w with
      ⟨⟨out, err⟩, w1⟩
    cases err with
    | some e => simp
    | none => rcases out with ⟨_ | ⟨_ | s, _ | ⟨t, r⟩⟩, tok⟩ <;> simp
  · rw [hR]
    unfold statusStackState
    simp only []
    rw [findStackByName_eq]
    rcases conn.DescribeStacksWithContext { Names := [some name], NextToken := none } w with
      ⟨⟨out, err⟩, w1⟩
    cases err with
    | some e => simp
    | none => rcases out with ⟨_ | ⟨_ | s, _ | ⟨t, r⟩⟩, tok⟩ <;> simp
  · intro h
    unfold waitStackStateDeleted
    simp only [pollRounds, hR, hT]
    unfold statusStackState
    simp only []
    rcases hf : findStackByName conn name w with ⟨⟨stack, err⟩, w1⟩
    rw [hf] at h
    cases h
    simp
  · intro s h
    unfold waitStackStateDeleted
    simp only [pollRounds, hR, hT]
    unfold statusStackState
    simp only []
    rcases hf : findStackByName conn name w with ⟨⟨stack, err⟩, w1⟩
    rw [hf] at h
    cases h
    simp
  · intro stack e h
    unfold waitStackStateDeleted
    simp only [pollRounds, hR, hT]
    unfold statusStackState
    simp only []
    rcases hf : findStackByName conn name w with ⟨⟨stack2, err⟩, w1⟩
    rw [hf] at h
    cases h
    simp

/-- Claim C10 (waiter configurations).  `fleetStateTimeout` is 180 minutes and
`stackOperationTimeout` 4 minutes.  `waitFleetStateRunning` runs the polling
helper on pending `STARTING`, target `RUNNING`, refresh `statusFleetState` for
the name and timeout `fleetStateTimeout`; `waitFleetStateStopped` on pending
`STOPPING`, target `STOPPED`, the same refresh and timeout;
`waitStackStateDeleted` on no pending state, target `NotFound`, `Unknown`,
refresh `statusStackState` for the name and timeout `stackOperationTimeout`;
every other field of the configuration is zero. -/
theorem waiter_configurations {σ : Type} (WaitForStateContext : WaitForState σ)
    (conn : AppStream σ) (name : String) (w : σ) :
    fleetStateTimeout = 180 * timeMinute ∧ fleetStateTimeout = 180 * 60 * 1000000000 ∧
    stackOperationTimeout = 4 * timeMinute ∧ stackOperationTimeout = 4 * 60 * 1000000000 ∧
    waitFleetStateRunning WaitForStateContext conn name w =
      (match WaitForStateContext
          { Pending := ["STARTING"], Target := ["RUNNING"],
            Refresh := statusFleetState conn name, Timeout := fleetStateTimeout } w with
        | ((GoAny.fleet output, err), w1) => ((output, err), w1)
        | ((_, err), w1) => ((none, err), w1)) ∧
    waitFleetStateStopped WaitForStateContext conn name w =
      (match WaitForStateContext
          { Pending := ["STOPPING"], Target := ["STOPPED"],
            Refresh := statusFleetState conn name, Timeout := fleetStateTimeout } w with
        | ((GoAny.fleet output, err), w1) => ((output, err), w1)
        | ((_, err), w1) => ((none, err), w1)) ∧
    waitStackStateDeleted WaitForStateContext conn name w =
      (match WaitForStateContext
          { Pending := [], Target := ["NotFound", "Unknown"],
            Refresh := statusStackState conn name, Timeout := stackOperationTimeout } w with
        | ((GoAny.stack output, err), w1) => ((output, err), w1)
        | ((_, err), w1) => ((none, err), w1)) := by
  refine ⟨rfl, by decide, rfl, by decide, ?_, ?_, ?_⟩
  · unfold waitFleetStateRunning waitFleetStateRunningConf FleetStateStarting FleetStateRunning
    simp only []
    rcases WaitForStateContext _ w with ⟨⟨out, err⟩, w1⟩
    cases out <;> rfl
  · unfold waitFleetStateStopped waitFleetStateStoppedConf FleetStateStopping FleetStateStopped
    simp only []
    rcases WaitForStateContext _ w with ⟨⟨out, err⟩, w1⟩
    cases out <;> rfl
  · unfold waitStackStateDeleted waitStackStateDeletedConf
    simp only []
    rcases WaitForStateContext _ w with ⟨⟨out, err⟩, w1⟩
    cases out <;> rfl

/-! ## Concrete instances -/

/-- Witness of C2 at the id `a:b`, which has two parts: the error is non-nil and
the result is the empty names, no values and the formatted error. -/
theorem readPartitionID_error_witness :
    (readPartitionID "a:b").error ≠ none ∧
    readPartitionID "a:b" =
      { catalogID := "", dbName := "", tableName := "", values := [],
        error := some (GoError.errorf
          ("expected ID in format catalog-id:database-name:table-name:values, received: "
            ++ "a:b")) } :=
  ⟨by decide, ((readPartitionID_error "a:b").2.2 (by decide)).1⟩

/-- Witness of C3 at the id `a:b:c:x#y`. -/
theorem readPartitionID_success_witness :
    (readPartitionID "a:b:c:x#y").error = none ∧
    ("a:b:c:x#y" = (readPartitionID "a:b:c:x#y").catalogID ++ ":" ++
        (readPartitionID "a:b:c:x#y").dbName ++ ":" ++
        (readPartitionID "a:b:c:x#y").tableName ++ ":" ++
        stringsJoin (readPartitionID "a:b:c:x#y").values "#" ∧
      ':' ∉ (readPartitionID "a:b:c:x#y").catalogID.data ∧
      ':' ∉ (readPartitionID "a:b:c:x#y").dbName.data ∧
      ':' ∉ (readPartitionID "a:b:c:x#y").tableName.data ∧
      ∀ v ∈ (readPartitionID "a:b:c:x#y").values, ':' ∉ v.data ∧ '#' ∉ v.data) :=
  ⟨by decide, readPartitionID_success "a:b:c:x#y" (by decide)⟩

/-- Witness of C4 on a connection whose describe calls succeed with no stack
and no fleet. -/
theorem find_not_found_witness :
    findStackByName
        (fixedConn ({ Stacks := [], NextToken := none }, none)
          ({ Fleets := [], NextToken := none }, none)) "web" () = ((none, none), ()) ∧
    findFleetByName
        (fixedConn ({ Stacks := [], NextToken := none }, none)
          ({ Fleets := [], NextToken := none }, none)) "web" () = ((none, none), ()) :=
  ⟨(find_not_found
      (fixedConn ({ Stacks := [], NextToken := none }, none)
        ({ Fleets := [], NextToken := none }, none)) "web" ()).1 _ _ rfl rfl,
    (find_not_found
      (fixedConn ({ Stacks := [], NextToken := none }, none)
        ({ Fleets := [], NextToken := none }, none)) "web" ()).2 _ _ rfl rfl⟩

/-- Witness of C5 on a connection whose stack describe call fails and whose
fleet describe call returns two fleets. -/
theorem find_error_iff_witness :
    (findStackByName
        (fixedConn ({ Stacks := [], NextToken := none }, some (GoError.sdk "Throttling" "slow down"))
          ({ Fleets := [none, none], NextToken := none }, none)) "web" ()).1.2
      = some (GoError.sdk "Throttling" "slow down") ∧
    ((findFleetByName
        (fixedConn ({ Stacks := [], NextToken := none }, some (GoError.sdk "Throttling" "slow down"))
          ({ Fleets := [none, none], NextToken := none }, none)) "web" ()).1.2 ≠ none ↔
      ((none : Option GoError) ≠ none ∨ 1 < [(none : Option Fleet), none].length)) :=
  ⟨((find_error_iff
      (fixedConn ({ Stacks := [], NextToken := none }, some (GoError.sdk "Throttling" "slow down"))
        ({ Fleets := [none, none], NextToken := none }, none)) "web" ()).1 _ _ _ rfl).2.1
      (by decide),
    ((find_error_iff
      (fixedConn ({ Stacks := [], NextToken := none }, some (GoError.sdk "Throttling" "slow down"))
        ({ Fleets := [none, none], NextToken := none }, none)) "web" ()).2 _ _ _ rfl).1⟩

/-- Witness of C6 on a connection whose describe calls return one stack and
one fleet. -/
theorem find_single_witness :
    findStackByName
        (fixedConn
          ({ Stacks := [some { Arn := none, Name := some "web", Description := none }],
             NextToken := none }, none)
          ({ Fleets := [some { Arn := none, Name := some "web", State := some "RUNNING" }],
             NextToken := none }, none)) "web" ()
      = ((some { Arn := none, Name := some "web", Description := none }, none), ()) ∧
    findFleetByName
        (fixedConn
          ({ Stacks := [some { Arn := none, Name := some "web", Description := none }],
             NextToken := none }, none)
          ({ Fleets := [some { Arn := none, Name := some "web", State := some "RUNNING" }],
             NextToken := none }, none)) "web" ()
      = ((some { Arn := none, Name := some "web", State := some "RUNNING" }, none), ()) :=
  ⟨(find_single
      (fixedConn
        ({ Stacks := [some { Arn := none, Name := some "web", Description := none }],
           NextToken := none }, none)
        ({ Fleets := [some { Arn := none, Name := some "web", State := some "RUNNING" }],
           NextToken := none }, none)) "web" ()).1 _ _ _ rfl rfl,
    (find_single
      (fixedConn
        ({ Stacks := [some { Arn := none, Name := some "web", Description := none }],
           NextToken := none }, none)
        ({ Fleets := [some { Arn := none, Name := some "web", State := some "RUNNING" }],
           NextToken := none }, none)) "web" ()).2 _ _ _ rfl rfl⟩

/-- Witness of C7 on a connection whose stack describe call returns one stack:
the refresh function reports `AVAILABLE` with that stack. -/
theorem statusStackState_cases_witness :
    statusStackState
        (fixedConn
          ({ Stacks := [some { Arn := none, Name := some "web", Description := none }],
             NextToken := none }, none)
          ({ Fleets := [], NextToken := none }, none)) "web" ()
      = ((GoAny.stack (some { Arn := none, Name := some "web", Description := none }),
          "AVAILABLE", none), ()) :=
  (statusStackState_cases
    (fixedConn
      ({ Stacks := [some { Arn := none, Name := some "web", Description := none }],
         NextToken := none }, none)
      ({ Fleets := [], NextToken := none }, none)) "web" ()).2.2.1 _ _ rfl

/-- Witness of C8 on a connection whose fleet describe call returns one fleet
with a nil `State`: the refresh function reports the empty state. -/
theorem statusFleetState_cases_witness :
    statusFleetState
        (fixedConn ({ Stacks := [], NextToken := none }, none)
          ({ Fleets := [some { Arn := none, Name := some "web", State := none }],
             NextToken := none }, none)) "web" ()
      = ((GoAny.fleet (some { Arn := none, Name := some "web", State := none }), "", none), ()) :=
  ((statusFleetState_cases
    (fixedConn ({ Stacks := [], NextToken := none }, none)
      ({ Fleets := [some { Arn := none, Name := some "web", State := none }],
         NextToken := none }, none)) "web" ()).1 _ _ rfl).1

/-- Witness of C9 on a connection on which the stack is there for two describe
calls and gone at the third: on a helper that polls for three rounds the
waiter polls twice more and returns the nil stack and the nil error after the
third call. -/
theorem waitStackStateDeleted_target_witness :
    waitStackStateDeleted (pollRounds 3) (vanishingStackConn 2) "web" 0 = ((none, none), 3) :=
  ((waitStackStateDeleted_target (pollRounds 0) 2 (vanishingStackConn 2) "web" 0).2.2.2.2.2.2.2.2.2.1
      { Arn := none, Name := some "web", Description := none } rfl).trans
    (((waitStackStateDeleted_target (pollRounds 0) 1 (vanishingStackConn 2) "web" 1).2.2.2.2.2.2.2.2.2.1
        { Arn := none, Name := some "web", Description := none } rfl).trans
      ((waitStackStateDeleted_target (pollRounds 0) 0 (vanishingStackConn 2) "web" 2).2.2.2.2.2.2.2.2.1
        rfl))


/-! ## AppStream waiters as wrappers of the polling helper -/

/-- Claim C11 (thin wrappers).  Each AppStream waiter runs the polling helper
once on its configuration: the world it leaves is the world the helper leaves
(for a helper that counts its calls, the count goes up by one), the error is
the helper's error unchanged, and the output is the helper's output when it
holds a pointer of the waiter's resource type and nil otherwise. -/
theorem waiters_thin_wrapper {σ : Type} (WaitForStateContext : WaitForState σ)
    (conn : AppStream σ) (name : String) (w : σ) :
    ((waitStackStateDeleted WaitForStateContext conn name w).2 =
        (WaitForStateContext (waitStackStateDeletedConf conn name) w).2 ∧
      (waitStackStateDeleted WaitForStateContext conn name w).1.2 =
        (WaitForStateContext (waitStackStateDeletedConf conn name) w).1.2 ∧
      (∀ p, (WaitForStateContext (waitStackStateDeletedConf conn name) w).1.1 = GoAny.stack p →
        (waitStackStateDeleted WaitForStateContext conn name w).1.1 = p) ∧
      ((∀ p, (WaitForStateContext (waitStackStateDeletedConf conn name) w).1.1 ≠ GoAny.stack p) →
        (waitStackStateDeleted WaitForStateContext conn name w).1.1 = none)) ∧
    ((waitFleetStateRunning WaitForStateContext conn name w).2 =
        (WaitForStateContext (waitFleetStateRunningConf conn name) w).2 ∧
      (waitFleetStateRunning WaitForStateContext conn name w).1.2 =
        (WaitForStateContext (waitFleetStateRunningConf conn name) w).1.2 ∧
      (∀ p, (WaitForStateContext (waitFleetStateRunningConf conn name) w).1.1 = GoAny.fleet p →
        (waitFleetStateRunning WaitForStateContext conn name w).1.1 = p) ∧
      ((∀ p, (WaitForStateContext (waitFleetStateRunningConf conn name) w).1.1 ≠ GoAny.fleet p) →
        (waitFleetStateRunning WaitForStateContext conn name w).1.1 = none)) ∧
    ((waitFleetStateStopped WaitForStateContext conn name w).2 =
        (WaitForStateContext (waitFleetStateStoppedConf conn name) w).2 ∧
      (waitFleetStateStopped WaitForStateContext conn name w).1.2 =
        (WaitForStateContext (waitFleetStateStoppedConf conn name) w).1.2 ∧
      (∀ p, (WaitForStateContext (waitFleetStateStoppedConf conn name) w).1.1 = GoAny.fleet p →
        (waitFleetStateStopped WaitForStateContext conn name w).1.1 = p) ∧
      ((∀ p, (WaitForStateContext (waitFleetStateStoppedConf conn name) w).1.1 ≠ GoAny.fleet p) →
        (waitFleetStateStopped WaitForStateContext conn name w).1.1 = none)) ∧
    (∀ (counting : WaitForState Nat) (c : AppStream Nat) (n : Nat),
      (∀ conf m, (counting conf m).2 = m + 1) →
        (waitStackStateDeleted counting c name n).2 = n + 1 ∧
        (waitFleetStateRunning counting c name n).2 = n + 1 ∧
        (waitFleetStateStopped counting c name n).2 = n + 1) := by
  refine ⟨?_, ?_, ?_, ?_⟩
  · unfold waitStackStateDeleted
    simp only []
    rcases WaitForStateContext (waitStackStateDeletedConf conn name) w with ⟨⟨out, err⟩, w1⟩
    cases out <;> simp
  · unfold waitFleetStateRunning
    simp only []
    rcases WaitForStateContext (waitFleetStateRunningConf conn name) w with ⟨⟨out, err⟩, w1⟩
    cases out <;> simp
  · unfold waitFleetStateStopped
    simp only []
    rcases WaitForStateContext (waitFleetStateStoppedConf conn name) w with ⟨⟨out, err⟩, w1⟩
    cases out <;> simp
  · intro counting c n hc
    refine ⟨?_, ?_, ?_⟩
    · rw [← hc (waitStackStateDeletedConf c name) n]
      unfold waitStackStateDeleted
      simp only []
      rcases counting (waitStackStateDeletedConf c name) n with ⟨⟨out, err⟩, w1⟩
      cases out <;> rfl
    · rw [← hc (waitFleetStateRunningConf c name) n]
      unfold waitFleetStateRunning
      simp only []
      rcases counting (waitFleetStateRunningConf c name) n with ⟨⟨out, err⟩, w1⟩
      cases out <;> rfl
    · rw [← hc (waitFleetStateStoppedConf c name) n]
      unfold waitFleetStateStopped
      simp only []
      rcases counting (waitFleetStateStoppedConf c name) n with ⟨⟨out, err⟩, w1⟩
      cases out <;> rfl

/-- Witness of C11 with a helper that counts its calls and hands back a typed
nil stack pointer with an error: the waiter returns the nil stack, that error
and a count of one. -/
theorem waiters_thin_wrapper_witness :
    waitStackStateDeleted
        (fun _ m => ((GoAny.stack none, some (GoError.errorf "timeout")), m + 1))
        { DescribeStacksWithContext := fun _ m => (({ Stacks := [], NextToken := none }, none), m),
          DescribeFleetsWithContext := fun _ m => (({ Fleets := [], NextToken := none }, none), m) }
        "web" 0
      = ((none, some (GoError.errorf "timeout")), 1) :=
  Prod.ext
    (Prod.ext
      ((waiters_thin_wrapper
        (fun _ m => ((GoAny.stack none, some (GoError.errorf "timeout")), m + 1))
        { DescribeStacksWithContext := fun _ m => (({ Stacks := [], NextToken := none }, none), m),
          DescribeFleetsWithContext := fun _ m => (({ Fleets := [], NextToken := none }, none), m) }
        "web" 0).1.2.2.1 none rfl)
      (waiters_thin_wrapper
        (fun _ m => ((GoAny.stack none, some (GoError.errorf "timeout")), m + 1))
        { DescribeStacksWithContext := fun _ m => (({ Stacks := [], NextToken := none }, none), m),
          DescribeFleetsWithContext := fun _ m => (({ Fleets := [], NextToken := none }, none), m) }
        "web" 0).1.2.1)
    ((waiters_thin_wrapper
        (fun _ m => ((GoAny.stack none, some (GoError.errorf "timeout")), m + 1))
        { DescribeStacksWithContext := fun _ m => (({ Stacks := [], NextToken := none }, none), m),
          DescribeFleetsWithContext := fun _ m => (({ Fleets := [], NextToken := none }, none), m) }
        "web" 0).2.2.2
      (fun _ m => ((GoAny.stack none, some (GoError.errorf "timeout")), m + 1))
      { DescribeStacksWithContext := fun _ m => (({ Stacks := [], NextToken := none }, none), m),
        DescribeFleetsWithContext := fun _ m => (({ Fleets := [], NextToken := none }, none), m) }
      0 (fun _ _ => rfl)).1

/-! ## Amplify status function -/

/-- Claim C12 (not-found is normalized by `statusDomainAssociation`).  When the
finder's error is a not-found error the refresh function returns the nil
result, the empty state and no error; for any other finder error it returns
the nil result, the empty state and that error; and when the finder succeeds
(`NotFound` is false of the nil error) it returns the domain association, its
`DomainStatus` string, empty for a nil pointer, and the nil error. -/
theorem statusDomainAssociation_cases {σ : Type}
    (find : String → String → σ → (Option DomainAssociation × Option GoError) × σ)
    (NotFound : Option GoError → Bool) (appID domainName : String) (w : σ) :
    (∀ da e w1, find appID domainName w = ((da, some e), w1) → NotFound (some e) = true →
      statusDomainAssociation find NotFound appID domainName w
        = some ((GoAny.nil, "", none), w1)) ∧
    (∀ da e w1, find appID domainName w = ((da, some e), w1) → NotFound (some e) = false →
      statusDomainAssociation find NotFound appID domainName w
        = some ((GoAny.nil, "", some e), w1)) ∧
    (∀ da w1, find appID domainName w = ((some da, none), w1) → NotFound none = false →
      statusDomainAssociation find NotFound appID domainName w
        = some ((GoAny.domainAssociation (some da), awsStringValue da.DomainStatus, none), w1) ∧
      (da.DomainStatus = none → awsStringValue da.DomainStatus = "") ∧
      (∀ st, da.DomainStatus = some st → awsStringValue da.DomainStatus = st)) := by
  unfold statusDomainAssociation
  simp only []
  refine ⟨?_, ?_, ?_⟩
  · intro da e w1 h hn
    rw [h]
    simp [hn]
  · intro da e w1 h hn
    rw [h]
    simp [hn]
  · intro da w1 h hn
    rw [h]
    refine ⟨by simp [hn], ?_, ?_⟩
    · intro hs; simp [hs, awsStringValue]
    · intro st hs; simp [hs, awsStringValue]

/-- Witness of C12 with a finder that fails with `NotFoundException` and a
test that recognises that code: no error is reported. -/
theorem statusDomainAssociation_cases_witness :
    statusDomainAssociation
        (fun _ _ (w : Unit) => ((none, some (GoError.sdk "NotFoundException" "gone")), w))
        (fun e => decide (e = some (GoError.sdk "NotFoundException" "gone")))
        "app" "example.com" ()
      = some ((GoAny.nil, "", none), ()) :=
  (statusDomainAssociation_cases
    (fun _ _ (w : Unit) => ((none, some (GoError.sdk "NotFoundException" "gone")), w))
    (fun e => decide (e = some (GoError.sdk "NotFoundException" "gone")))
    "app" "example.com" ()).1 none (GoError.sdk "NotFoundException" "gone") () rfl (by decide)

/-! ## EC2 transit gateway data source -/

/-- Claim C13 (errors of `dataSourceAwsEc2TransitGatewayRead`).  The error is nil
exactly when the describe call succeeded, its output is non-nil and holds
exactly one transit gateway, that gateway is non-nil, its `Options` are non-nil
and storing the tags succeeded.  Otherwise the read fails, in this order of
precedence, with the wrapped API error; `no results found` for a nil output or
no gateway; `multiple results found, try adjusting search criteria` for more
than one gateway; `empty result` for a nil gateway; `missing options` for nil
`Options`; and the wrapped error of storing the tags. -/
theorem transitGatewayRead_error {σ κ : Type}
    (build : List FilterBlock → List (Option Ec2Filter))
    (tagsMap : List (Option Ec2Tag) → κ → List (String × String))
    (setTags : List (String × String) → Option GoError)
    (d : TransitGatewayData) (client : AWSClient σ κ) (w : σ) :
    ∀ out derr w1,
      client.ec2conn (dataSourceAwsEc2TransitGatewayReadInput build d) w = ((out, derr), w1) →
      ((dataSourceAwsEc2TransitGatewayRead build tagsMap setTags d client w).1.2 = none ↔
        derr = none ∧ ∃ output tg opts, out = some output ∧
          output.TransitGateways = [some tg] ∧ tg.Options = some opts ∧
          setTags (tagsMap tg.Tags client.IgnoreTagsConfig) = none) ∧
      (∀ e, derr = some e →
        (dataSourceAwsEc2TransitGatewayRead build tagsMap setTags d client w).1.2 =
          some (GoError.wrapf ("error reading EC2 Transit Gateway: " ++ e.Error) e)) ∧
      (derr = none → (out = none ∨ ∃ output, out = some output ∧ output.TransitGateways = []) →
        (dataSourceAwsEc2TransitGatewayRead build tagsMap setTags d client w).1.2 =
          some (GoError.errorf "error reading EC2 Transit Gateway: no results found")) ∧
      (derr = none → ∀ output, out = some output → 1 < output.TransitGateways.length →
        (dataSourceAwsEc2TransitGatewayRead build tagsMap setTags d client w).1.2 =
          some (GoError.errorf
            "error reading EC2 Transit Gateway: multiple results found, try adjusting search criteria")) ∧
      (derr = none → ∀ output, out = some output → output.TransitGateways = [none] →
        (dataSourceAwsEc2TransitGatewayRead build tagsMap setTags d client w).1.2 =
          some (GoError.errorf "error reading EC2 Transit Gateway: empty result")) ∧
      (derr = none → ∀ output tg, out = some output → output.TransitGateways = [some tg] →
        tg.Options = none →
        (dataSourceAwsEc2TransitGatewayRead build tagsMap setTags d client w).1.2 =
          some (GoError.errorf "error reading EC2 Transit Gateway: missing options")) ∧
      (derr = none → ∀ output tg opts e, out = some output →
        output.TransitGateways = [some tg] → tg.Options = some opts →
        setTags (tagsMap tg.Tags client.IgnoreTagsConfig) = some e →
        (dataSourceAwsEc2TransitGatewayRead build tagsMap setTags d client w).1.2 =
          some (GoError.wrapf ("error setting tags: " ++ e.Error) e)) := by
  intro out derr w1 h
  unfold dataSourceAwsEc2TransitGatewayRead
  simp only []
  rw [h]
  cases derr with
  | some e => simp [errorfWrap]
  | none =>
    cases out with
    | none => simp [errorsNew]
    | some output =>
      rcases output with ⟨tok, _ | ⟨g, _ | ⟨g2, rest⟩⟩⟩
      · simp [errorsNew]
        (repeat' apply And.intro) <;> intros <;> subst_vars <;> simp_all
      · cases g with
        | none =>
          simp [errorsNew]
          (repeat' apply And.intro) <;> intros <;> subst_vars <;> simp_all
        | some tg =>
          rcases hO : tg.Options with _ | opts
          · simp [errorsNew, hO]
            intros
            subst_vars
            simp_all
          · rcases hT : setTags (tagsMap tg.Tags client.IgnoreTagsConfig) with _ | e
            · simp [hO, hT]
              (repeat' apply And.intro) <;> intros <;> subst_vars <;> simp_all
            · simp [hO, hT, errorfWrap]
              (repeat' apply And.intro) <;> intros <;> subst_vars <;> simp_all
      · simp [errorsNew]
        (repeat' apply And.intro) <;> intros <;> subst_vars <;> simp_all

/-- The world `dataSourceAwsEc2TransitGatewayRead` leaves is the world its one
describe call leaves. -/
theorem transitGatewayRead_world {σ κ : Type}
    (build : List FilterBlock → List (Option Ec2Filter))
    (tagsMap : List (Option Ec2Tag) → κ → List (String × String))
    (setTags : List (String × String) → Option GoError)
    (d : TransitGatewayData) (client : AWSClient σ κ) (w : σ) :
    (dataSourceAwsEc2TransitGatewayRead build tagsMap setTags d client w).2 =
      (client.ec2conn (dataSourceAwsEc2TransitGatewayReadInput build d) w).2 := by
  unfold dataSourceAwsEc2TransitGatewayRead
  simp only []
  rcases client.ec2conn (dataSourceAwsEc2TransitGatewayReadInput build d) w with ⟨⟨out, derr⟩, w1⟩
  cases derr with
  | some e => rfl
  | none =>
    cases out with
    | none => rfl
    | some output =>
      rcases output with ⟨tok, _ | ⟨g, _ | ⟨g2, rest⟩⟩⟩
      · rfl
      · cases g with
        | none => rfl
        | some tg =>
          rcases hO : tg.Options with _ | opts
          · simp [hO]
          · rcases hT : setTags (tagsMap tg.Tags client.IgnoreTagsConfig) with _ | e
            · simp [hO, hT]
            · simp [hO, hT]
      · simp

/-- Claim C14 (what a successful read stores).  When
`dataSourceAwsEc2TransitGatewayRead` returns a nil error, the describe call
returned a single gateway with options; the ID of the resource, and with it
the attribute `id`, is the `TransitGatewayId` of that gateway (empty for a nil
pointer); `amazon_side_asn`, `association_default_route_table_id`,
`auto_accept_shared_attachments`, `default_route_table_association`,
`default_route_table_propagation`, `dns_support`,
`propagation_default_route_table_id` and `vpn_ecmp_support` come from its
`Options`; `arn`, `description` and `owner_id` from the gateway; `tags` from
its converted tags; `filter` is left as it was. -/
theorem transitGatewayRead_success {σ κ : Type}
    (build : List FilterBlock → List (Option Ec2Filter))
    (tagsMap : List (Option Ec2Tag) → κ → List (String × String))
    (setTags : List (String × String) → Option GoError)
    (d : TransitGatewayData) (client : AWSClient σ κ) (w : σ)
    (h : (dataSourceAwsEc2TransitGatewayRead build tagsMap setTags d client w).1.2 = none) :
    ∃ output tg opts,
      (client.ec2conn (dataSourceAwsEc2TransitGatewayReadInput build d) w).1.1 = some output ∧
      output.TransitGateways = [some tg] ∧ tg.Options = some opts ∧
      (dataSourceAwsEc2TransitGatewayRead build tagsMap setTags d client w).1.1 =
        { Id := awsStringValue tg.TransitGatewayId,
          amazon_side_asn := opts.AmazonSideAsn,
          arn := tg.TransitGatewayArn,
          association_default_route_table_id := opts.AssociationDefaultRouteTableId,
          auto_accept_shared_attachments := opts.AutoAcceptSharedAttachments,
          default_route_table_association := opts.DefaultRouteTableAssociation,
          default_route_table_propagation := opts.DefaultRouteTablePropagation,
          description := tg.Description,
          dns_support := opts.DnsSupport,
          filter := d.filter,
          id := awsStringValue tg.TransitGatewayId,
          owner_id := tg.OwnerId,
          propagation_default_route_table_id := opts.PropagationDefaultRouteTableId,
          tags := tagsMap tg.Tags client.IgnoreTagsConfig,
          vpn_ecmp_support := opts.VpnEcmpSupport } ∧
      (tg.TransitGatewayId = none →
        (dataSourceAwsEc2TransitGatewayRead build tagsMap setTags d client w).1.1.Id = "" ∧
        (dataSourceAwsEc2TransitGatewayRead build tagsMap setTags d client w).1.1.id = "") ∧
      (∀ v, tg.TransitGatewayId = some v →
        (dataSourceAwsEc2TransitGatewayRead build tagsMap setTags d client w).1.1.Id = v ∧
        (dataSourceAwsEc2TransitGatewayRead build tagsMap setTags d client w).1.1.id = v) := by
  revert h
  unfold dataSourceAwsEc2TransitGatewayRead
  simp only []
  rcases client.ec2conn (dataSourceAwsEc2TransitGatewayReadInput build d) w with ⟨⟨out, derr⟩, w1⟩
  cases derr with
  | some e => simp
  | none =>
    cases out with
    | none => simp
    | some output =>
      rcases output with ⟨tok, _ | ⟨g, _ | ⟨g2, rest⟩⟩⟩
      · simp
      · cases g with
        | none => simp
        | some tg =>
          rcases hO : tg.Options with _ | opts
          · simp [hO]
          · rcases hT : setTags (tagsMap tg.Tags client.IgnoreTagsConfig) with _ | e
            · intro _
              refine ⟨_, tg, opts, rfl, rfl, hO, ?_, ?_, ?_⟩
              · simp [hO, hT, TransitGatewayData.SetId]
              · intro hid
                simp [hO, hT, hid, awsStringValue, TransitGatewayData.SetId]
              · intro v hid
                simp [hO, hT, hid, awsStringValue, TransitGatewayData.SetId]
            · simp [hO, hT]
      · simp

/-- Claim C20 (the request of `dataSourceAwsEc2TransitGatewayRead`).  The
request's `TransitGatewayIds` is the one-element list of the `id` attribute
when that is non-empty and empty otherwise; its `Filters` are built from the
`filter` attribute when that is set and empty otherwise; every other field is
nil.  The read makes its one describe call with this request: with a
connection that logs the requests it receives, the log after the read is that
single request. -/
theorem transitGatewayRead_request
    (build : List FilterBlock → List (Option Ec2Filter)) (d : TransitGatewayData) :
    (d.id ≠ "" →
      (dataSourceAwsEc2TransitGatewayReadInput build d).TransitGatewayIds = [some d.id]) ∧
    (d.id = "" → (dataSourceAwsEc2TransitGatewayReadInput build d).TransitGatewayIds = []) ∧
    (d.filter ≠ [] →
      (dataSourceAwsEc2TransitGatewayReadInput build d).Filters = build d.filter) ∧
    (d.filter = [] → (dataSourceAwsEc2TransitGatewayReadInput build d).Filters = []) ∧
    (dataSourceAwsEc2TransitGatewayReadInput build d).DryRun = none ∧
    (dataSourceAwsEc2TransitGatewayReadInput build d).MaxResults = none ∧
    (dataSourceAwsEc2TransitGatewayReadInput build d).NextToken = none ∧
    (∀ (κ : Type) (tagsMap : List (Option Ec2Tag) → κ → List (String × String))
        (setTags : List (String × String) → Option GoError)
        (client : AWSClient (List DescribeTransitGatewaysInput) κ),
      (∀ i l, (client.ec2conn i l).2 = l ++ [i]) →
      (dataSourceAwsEc2TransitGatewayRead build tagsMap setTags d client []).2 =
        [dataSourceAwsEc2TransitGatewayReadInput build d]) := by
  refine ⟨?_, ?_, ?_, ?_, ?_, ?_, ?_, ?_⟩
  · intro h
    by_cases hf : d.filter = [] <;>
      simp [dataSourceAwsEc2TransitGatewayReadInput, getOkString, getOkSet, awsString, h, hf]
  · intro h
    by_cases hf : d.filter = [] <;>
      simp [dataSourceAwsEc2TransitGatewayReadInput, getOkString, getOkSet, awsString, h, hf]
  · intro hf
    by_cases h : d.id = "" <;>
      simp [dataSourceAwsEc2TransitGatewayReadInput, getOkString, getOkSet, awsString, h, hf]
  · intro hf
    by_cases h : d.id = "" <;>
      simp [dataSourceAwsEc2TransitGatewayReadInput, getOkString, getOkSet, awsString, h, hf]
  · by_cases h : d.id = "" <;> by_cases hf : d.filter = [] <;>
      simp [dataSourceAwsEc2TransitGatewayReadInput, getOkString, getOkSet, awsString, h, hf]
  · by_cases h : d.id = "" <;> by_cases hf : d.filter = [] <;>
      simp [dataSourceAwsEc2TransitGatewayReadInput, getOkString, getOkSet, awsString, h, hf]
  · by_cases h : d.id = "" <;> by_cases hf : d.filter = [] <;>
      simp [dataSourceAwsEc2TransitGatewayReadInput, getOkString, getOkSet, awsString, h, hf]
  · intro κ tagsMap setTags client hlog
    rw [transitGatewayRead_world, hlog]
    rfl

/-! ## The scaling plan sweeper on the scripted service -/

theorem multierrorAppendAll_append (err : Option MultiError) (a b : List GoError) :
    multierrorAppendAll (multierrorAppendAll err a) b = multierrorAppendAll err (a ++ b) := by
  simp [multierrorAppendAll, List.foldl_append]

theorem multierrorAppendAll_some (m : MultiError) (es : List GoError) :
    multierrorAppendAll (some m) es = some { Errors := m.Errors ++ es } := by
  induction es generalizing m with
  | nil => simp [multierrorAppendAll]
  | cons e rest ih =>
    have h : multierrorAppendAll (some m) (e :: rest)
        = multierrorAppendAll (some { Errors := m.Errors ++ [e] }) rest := rfl
    rw [h, ih]
    simp

theorem errorOrNil_appendAll_none (es : List GoError) :
    errorOrNil (multierrorAppendAll none es) =
      if es = [] then none else some (SweeperError.multi { Errors := es }) := by
  cases es with
  | nil => rfl
  | cons e rest =>
    have h : multierrorAppendAll none (e :: rest)
        = multierrorAppendAll (some { Errors := [e] }) rest := rfl
    rw [h, multierrorAppendAll_some]
    simp [errorOrNil]

theorem sweepScalingPlansPage_scripted (plans : List ScalingPlan)
    (errs : Option MultiError) (s : SweepScript) :
    sweepScalingPlansPage scriptedDelete scriptedClient plans errs s =
      (multierrorAppendAll errs ((s.deleteResults.take plans.length).reduceOption),
        { s with
          deleteResults := s.deleteResults.drop plans.length,
          deletes := s.deletes ++ plans.map scalingPlanData }) := by
  induction plans generalizing errs s with
  | nil => simp [sweepScalingPlansPage, multierrorAppendAll]
  | cons p ps ih =>
    have step : sweepScalingPlansPage scriptedDelete scriptedClient (p :: ps) errs s
        = sweepScalingPlansPage scriptedDelete scriptedClient ps
            (match (scriptedDelete (scalingPlanData p) scriptedClient s).1 with
              | some err => multierrorAppend errs err
              | none => errs)
            (scriptedDelete (scalingPlanData p) scriptedClient s).2 := by
      simp only [sweepScalingPlansPage, List.foldl_cons]
      cases (scriptedDelete (scalingPlanData p) scriptedClient s).1 <;> rfl
    rw [step, ih]
    rcases s with ⟨resp, dels, reqs, dlog⟩
    cases dels with
    | nil => simp [scriptedDelete]
    | cons r rs =>
      cases r with
      | none => simp [scriptedDelete, List.reduceOption_cons_of_none]
      | some e =>
        simp [scriptedDelete, List.reduceOption_cons_of_some]
        rfl

theorem planCount_cons (p : DescribeScalingPlansOutput) (ps : List DescribeScalingPlansOutput) :
    planCount (p :: ps) = p.ScalingPlans.length + planCount ps := by
  simp [planCount]

theorem planData_cons (p : DescribeScalingPlansOutput) (ps : List DescribeScalingPlansOutput) :
    planData (p :: ps) = p.ScalingPlans.map scalingPlanData ++ planData ps := by
  simp [planData]

theorem reduceOption_take_add (dels : List (Option GoError)) (a b : Nat) :
    (dels.take (a + b)).reduceOption =
      (dels.take a).reduceOption ++ ((dels.drop a).take b).reduceOption := by
  rw [List.take_add, List.reduceOption_append]

theorem scriptedClient_conn : scriptedClient.AutoScalingPlansConn = scriptedDescribe := rfl

theorem sweepScalingPlansLoop_last (skip : Option GoError → Bool) (hskip : skip none = false)
    (last : DescribeScalingPlansOutput) (hlast : awsStringValue last.NextToken = "")
    (k : Nat) (input : DescribeScalingPlansInput) (errs : Option MultiError)
    (tail : List (DescribeScalingPlansOutput × Option GoError))
    (dels : List (Option GoError)) (reqs : List DescribeScalingPlansInput)
    (dlog : List ScalingPlanData) :
    sweepScalingPlansLoop skip scriptedDelete scriptedClient (k + 1) input errs
        { responses := (last, none) :: tail, deleteResults := dels, requests := reqs,
          deletes := dlog } =
      some (errorOrNil (multierrorAppendAll errs
          ((dels.take last.ScalingPlans.length).reduceOption)),
        { responses := tail, deleteResults := dels.drop last.ScalingPlans.length,
          requests := reqs ++ [input],
          deletes := dlog ++ last.ScalingPlans.map scalingPlanData }) := by
  simp [sweepScalingPlansLoop, scriptedClient_conn, scriptedDescribe, hskip, hlast,
    sweepScalingPlansPage_scripted]

theorem sweepScalingPlansLoop_skipped (skip : Option GoError → Bool)
    (out : DescribeScalingPlansOutput) (e : GoError) (he : skip (some e) = true)
    (k : Nat) (input : DescribeScalingPlansInput) (errs : Option MultiError)
    (tail : List (DescribeScalingPlansOutput × Option GoError))
    (dels : List (Option GoError)) (reqs : List DescribeScalingPlansInput)
    (dlog : List ScalingPlanData) :
    sweepScalingPlansLoop skip scriptedDelete scriptedClient (k + 1) input errs
        { responses := (out, some e) :: tail, deleteResults := dels, requests := reqs,
          deletes := dlog } =
      some (errorOrNil errs,
        { responses := tail, deleteResults := dels, requests := reqs ++ [input],
          deletes := dlog }) := by
  simp [sweepScalingPlansLoop, scriptedClient_conn, scriptedDescribe, he]

theorem sweepScalingPlansLoop_failed (skip : Option GoError → Bool)
    (out : DescribeScalingPlansOutput) (e : GoError) (he : skip (some e) = false)
    (k : Nat) (input : DescribeScalingPlansInput) (errs : Option MultiError)
    (tail : List (DescribeScalingPlansOutput × Option GoError))
    (dels : List (Option GoError)) (reqs : List DescribeScalingPlansInput)
    (dlog : List ScalingPlanData) :
    sweepScalingPlansLoop skip scriptedDelete scriptedClient (k + 1) input errs
        { responses := (out, some e) :: tail, deleteResults := dels, requests := reqs,
          deletes := dlog } =
      some (errorOrNil (multierrorAppendAll errs
          [GoError.wrapf ("error listing Auto Scaling Scaling Plans: " ++ e.Error) e]),
        { responses := tail, deleteResults := dels, requests := reqs ++ [input],
          deletes := dlog }) := by
  simp [sweepScalingPlansLoop, scriptedClient_conn, scriptedDescribe, he, multierrorAppendAll,
    errorfWrap]

theorem sweepScalingPlansLoop_pages (skip : Option GoError → Bool) (hskip : skip none = false)
    (pre : List DescribeScalingPlansOutput)
    (hpre : ∀ p ∈ pre, awsStringValue p.NextToken ≠ "")
    (k : Nat) (input : DescribeScalingPlansInput) (errs : Option MultiError)
    (tail : List (DescribeScalingPlansOutput × Option GoError))
    (dels : List (Option GoError)) (reqs : List DescribeScalingPlansInput)
    (dlog : List ScalingPlanData) :
    sweepScalingPlansLoop skip scriptedDelete scriptedClient (pre.length + k) input errs
        { responses := pre.map (fun p => (p, none)) ++ tail, deleteResults := dels,
          requests := reqs, deletes := dlog } =
      sweepScalingPlansLoop skip scriptedDelete scriptedClient k (requestAfter input pre)
        (multierrorAppendAll errs ((dels.take (planCount pre)).reduceOption))
        { responses := tail, deleteResults := dels.drop (planCount pre),
          requests := reqs ++ requestsFor input pre, deletes := dlog ++ planData pre } := by
  induction pre generalizing input errs dels reqs dlog with
  | nil => simp [requestAfter, requestsFor, planCount, planData, multierrorAppendAll]
  | cons p ps ih =>
    have hp : awsStringValue p.NextToken ≠ "" := hpre p (by simp)
    have hps : ∀ q ∈ ps, awsStringValue q.NextToken ≠ "" :=
      fun q hq => hpre q (List.mem_cons_of_mem _ hq)
    have hlen : (p :: ps).length + k = (ps.length + k) + 1 := by
      simp only [List.length_cons]; omega
    rw [hlen]
    have step : sweepScalingPlansLoop skip scriptedDelete scriptedClient ((ps.length + k) + 1)
          input errs
          { responses := (p :: ps).map (fun p => (p, none)) ++ tail, deleteResults := dels,
            requests := reqs, deletes := dlog } =
        sweepScalingPlansLoop skip scriptedDelete scriptedClient (ps.length + k)
          { input with NextToken := p.NextToken }
          (multierrorAppendAll errs ((dels.take p.ScalingPlans.length).reduceOption))
          { responses := ps.map (fun p => (p, none)) ++ tail,
            deleteResults := dels.drop p.ScalingPlans.length,
            requests := reqs ++ [input],
            deletes := dlog ++ p.ScalingPlans.map scalingPlanData } := by
      simp [sweepScalingPlansLoop, scriptedClient_conn, scriptedDescribe, hskip, hp,
        sweepScalingPlansPage_scripted]
    rw [step, ih hps]
    rw [multierrorAppendAll_append, ← reduceOption_take_add, planCount_cons, planData_cons]
    simp [requestAfter, requestsFor, List.drop_drop, Nat.add_comm]

theorem requestsFor_requestAfter (input : DescribeScalingPlansInput)
    (pre : List DescribeScalingPlansOutput) :
    requestsFor input pre ++ [requestAfter input pre] =
      input :: pre.map (fun p => { input with NextToken := p.NextToken }) := by
  induction pre generalizing input with
  | nil => rfl
  | cons p ps ih =>
    simp only [requestsFor, requestAfter, List.cons_append, List.map_cons]
    rw [ih]

theorem reduceOption_eq_nil (l : List (Option GoError)) :
    l.reduceOption = [] ↔ ∀ r ∈ l, r = none := by
  induction l with
  | nil => simp
  | cons r rs ih =>
    cases r with
    | none => simp [List.reduceOption_cons_of_none, ih]
    | some e => simp [List.reduceOption_cons_of_some]

theorem sweepScalingPlans_scripted (skip : Option GoError → Bool) (fuel : Nat)
    (region : String) (s : SweepScript) :
    sweepScalingPlans scriptedSweepClient skip scriptedDelete fuel region s =
      sweepScalingPlansLoop skip scriptedDelete scriptedClient fuel {} none s := rfl

theorem sweepScalingPlans_pages_then_last (skip : Option GoError → Bool)
    (hskip : skip none = false)
    (pre : List DescribeScalingPlansOutput) (last : DescribeScalingPlansOutput)
    (rest : List (DescribeScalingPlansOutput × Option GoError))
    (dels : List (Option GoError)) (region : String) (fuel : Nat)
    (hpre : ∀ p ∈ pre, awsStringValue p.NextToken ≠ "")
    (hlast : awsStringValue last.NextToken = "")
    (hfuel : pre.length + 1 ≤ fuel) :
    sweepScalingPlans scriptedSweepClient skip scriptedDelete fuel region
        (sweepScript ((pre ++ [last]).map (fun p => (p, none)) ++ rest) dels) =
      some (errorOrNil (multierrorAppendAll none
          ((dels.take (planCount (pre ++ [last]))).reduceOption)),
        { responses := rest,
          deleteResults := dels.drop (planCount (pre ++ [last])),
          requests := ({} : DescribeScalingPlansInput) ::
            pre.map (fun p => ({ NextToken := p.NextToken } : DescribeScalingPlansInput)),
          deletes := planData (pre ++ [last]) }) := by
  obtain ⟨k, rfl⟩ : ∃ k, fuel = pre.length + (k + 1) := ⟨fuel - (pre.length + 1), by omega⟩
  have hresp : (pre ++ [last]).map (fun p => (p, (none : Option GoError))) ++ rest
      = pre.map (fun p => (p, none)) ++ ((last, none) :: rest) := by simp
  rw [sweepScalingPlans_scripted, sweepScript, hresp,
    sweepScalingPlansLoop_pages skip hskip pre hpre,
    sweepScalingPlansLoop_last skip hskip last hlast,
    multierrorAppendAll_append, ← reduceOption_take_add]
  have hcount : planCount (pre ++ [last]) = planCount pre + last.ScalingPlans.length := by
    simp [planCount]
  have hdata : planData (pre ++ [last]) = planData pre ++ last.ScalingPlans.map scalingPlanData := by
    simp [planData]
  have hreq := requestsFor_requestAfter {} pre
  rw [hcount, hdata]
  simp only [List.nil_append, List.drop_drop, List.append_assoc]
  rw [hreq]

theorem sweepScalingPlans_pages_then_error (skip : Option GoError → Bool)
    (hskip : skip none = false)
    (pre : List DescribeScalingPlansOutput) (out : DescribeScalingPlansOutput) (e : GoError)
    (rest : List (DescribeScalingPlansOutput × Option GoError))
    (dels : List (Option GoError)) (region : String) (fuel : Nat)
    (hpre : ∀ p ∈ pre, awsStringValue p.NextToken ≠ "")
    (hfuel : pre.length + 1 ≤ fuel) :
    sweepScalingPlans scriptedSweepClient skip scriptedDelete fuel region
        (sweepScript (pre.map (fun p => (p, none)) ++ (out, some e) :: rest) dels) =
      some (errorOrNil (multierrorAppendAll none
          ((dels.take (planCount pre)).reduceOption ++
            if skip (some e) = true then []
            else [GoError.wrapf ("error listing Auto Scaling Scaling Plans: " ++ e.Error) e])),
        { responses := rest,
          deleteResults := dels.drop (planCount pre),
          requests := ({} : DescribeScalingPlansInput) ::
            pre.map (fun p => ({ NextToken := p.NextToken } : DescribeScalingPlansInput)),
          deletes := planData pre }) := by
  obtain ⟨k, rfl⟩ : ∃ k, fuel = pre.length + (k + 1) := ⟨fuel - (pre.length + 1), by omega⟩
  have hreq := requestsFor_requestAfter {} pre
  rw [sweepScalingPlans_scripted, sweepScript, sweepScalingPlansLoop_pages skip hskip pre hpre]
  by_cases he : skip (some e) = true
  · rw [sweepScalingPlansLoop_skipped skip out e he]
    simp only [List.nil_append, he, if_true, List.append_nil]
    rw [hreq]
  · have he2 : skip (some e) = false := by simpa using he
    rw [sweepScalingPlansLoop_failed skip out e he2, multierrorAppendAll_append]
    simp only [List.nil_append]
    rw [hreq]
    simp [he2]

/-- Claim C15 (listing errors in `sweepScalingPlans`).  On the scripted service,
after any pages that were listed and swept, a listing that fails with a
skippable error ends the sweep: the result is the collection of the errors of
the deletions that failed so far, in order, and nil when none failed; the
listing error is not in it.  A listing that fails with an error that is not
skippable ends the sweep with that collection followed by the listing error
wrapped as `error listing Auto Scaling Scaling Plans: ...`.  No further
request is made.  (`SkipSweepError` is false of the nil error.) -/
theorem sweepScalingPlans_listing_error (skip : Option GoError → Bool)
    (hskip : skip none = false)
    (pre : List DescribeScalingPlansOutput) (out : DescribeScalingPlansOutput) (e : GoError)
    (rest : List (DescribeScalingPlansOutput × Option GoError))
    (dels : List (Option GoError)) (region : String) (fuel : Nat)
    (hpre : ∀ p ∈ pre, awsStringValue p.NextToken ≠ "")
    (hfuel : pre.length + 1 ≤ fuel) :
    ∃ result s',
      sweepScalingPlans scriptedSweepClient skip scriptedDelete fuel region
        (sweepScript (pre.map (fun p => (p, none)) ++ (out, some e) :: rest) dels)
        = some (result, s') ∧
      s'.responses = rest ∧ s'.requests.length = pre.length + 1 ∧
      (skip (some e) = true →
        result =
          if (dels.take (planCount pre)).reduceOption = [] then none
          else some (SweeperError.multi
            { Errors := (dels.take (planCount pre)).reduceOption })) ∧
      (skip (some e) = false →
        result = some (SweeperError.multi
          { Errors := (dels.take (planCount pre)).reduceOption ++
              [GoError.wrapf ("error listing Auto Scaling Scaling Plans: " ++ e.Error) e] })) := by
  refine ⟨_, _, sweepScalingPlans_pages_then_error skip hskip pre out e rest dels region fuel
    hpre hfuel, rfl, by simp, ?_, ?_⟩
  · intro he
    rw [errorOrNil_appendAll_none]
    simp [he]
  · intro he
    rw [errorOrNil_appendAll_none]
    simp [he]

/-- Claim C18 (deletions in `sweepScalingPlans`).  On the scripted service, when
the pages up to the first one without a next token are listed successfully,
the sweep returns; `Delete` was attempted once for every scaling plan of those
pages, in page order and in the order of each page, with the plan's name and
version, whatever the outcomes of the deletions; the returned error is nil
exactly when every one of those deletions succeeded, and otherwise it is the
collection of the errors of the failed deletions in the order they occurred.
(`SkipSweepError` is false of the nil error.) -/
theorem sweepScalingPlans_deletions (skip : Option GoError → Bool)
    (hskip : skip none = false)
    (pre : List DescribeScalingPlansOutput) (last : DescribeScalingPlansOutput)
    (rest : List (DescribeScalingPlansOutput × Option GoError))
    (dels : List (Option GoError)) (region : String) (fuel : Nat)
    (hpre : ∀ p ∈ pre, awsStringValue p.NextToken ≠ "")
    (hlast : awsStringValue last.NextToken = "")
    (hfuel : pre.length + 1 ≤ fuel) :
    ∃ result s',
      sweepScalingPlans scriptedSweepClient skip scriptedDelete fuel region
        (sweepScript ((pre ++ [last]).map (fun p => (p, none)) ++ rest) dels)
        = some (result, s') ∧
      s'.deletes =
        ((pre ++ [last]).map (fun p => p.ScalingPlans.map (fun scalingPlan =>
          ({ Id := "????????????????",
             name := awsStringValue scalingPlan.ScalingPlanName,
             scaling_plan_version := awsInt64Value scalingPlan.ScalingPlanVersion }
            : ScalingPlanData)))).flatten ∧
      s'.deletes.length = ((pre ++ [last]).map (fun p => p.ScalingPlans.length)).sum ∧
      (result = none ↔ ∀ r ∈ dels.take s'.deletes.length, r = none) ∧
      ((dels.take s'.deletes.length).reduceOption ≠ [] →
        result = some (SweeperError.multi
          { Errors := (dels.take s'.deletes.length).reduceOption })) := by
  have hlen : (planData (pre ++ [last])).length = planCount (pre ++ [last]) := by
    simp [planData, planCount, List.length_flatten, Function.comp_def]
  refine ⟨_, _, sweepScalingPlans_pages_then_last skip hskip pre last rest dels region fuel
    hpre hlast hfuel, rfl, ?_, ?_, ?_⟩
  · simpa [planCount] using hlen
  · simp only [hlen]
    rw [errorOrNil_appendAll_none, ← reduceOption_eq_nil]
    by_cases h : (dels.take (planCount (pre ++ [last]))).reduceOption = [] <;> simp [h]
  · simp only [hlen]
    intro h
    rw [errorOrNil_appendAll_none]
    simp [h]

/-- Claim C19 (pagination of `sweepScalingPlans`).  On the scripted service
whose pages up to `last` have a next token and whose page `last` has none (nil
or empty), the loop terminates: with at least as many rounds as those pages
the sweep returns.  It made exactly one request for each of those pages and
none for what follows; the first request is the zero input, without a token,
and every later request carries the next token of the page before it.
(`SkipSweepError` is false of the nil error.) -/
theorem sweepScalingPlans_pagination (skip : Option GoError → Bool)
    (hskip : skip none = false)
    (pre : List DescribeScalingPlansOutput) (last : DescribeScalingPlansOutput)
    (rest : List (DescribeScalingPlansOutput × Option GoError))
    (dels : List (Option GoError)) (region : String) (fuel : Nat)
    (hpre : ∀ p ∈ pre, awsStringValue p.NextToken ≠ "")
    (hlast : awsStringValue last.NextToken = "")
    (hfuel : pre.length + 1 ≤ fuel) :
    ∃ result s',
      sweepScalingPlans scriptedSweepClient skip scriptedDelete fuel region
        (sweepScript ((pre ++ [last]).map (fun p => (p, none)) ++ rest) dels)
        = some (result, s') ∧
      s'.responses = rest ∧
      s'.requests.length = (pre ++ [last]).length ∧
      s'.requests = ({} : DescribeScalingPlansInput) ::
        pre.map (fun p => ({ NextToken := p.NextToken } : DescribeScalingPlansInput)) ∧
      s'.requests.map (fun r => r.NextToken) = none :: pre.map (fun p => p.NextToken) := by
  refine ⟨_, _, sweepScalingPlans_pages_then_last skip hskip pre last rest dels region fuel
    hpre hlast hfuel, rfl, by simp, rfl, ?_⟩
  simp [Function.comp_def]

/-! ## Chime streaming destroy check -/

/-- The destroy check passes over every resource whose type is not
`aws_chime_voice_connector_termination`: on such resources alone it makes no
call and returns nil. -/
theorem streamingDestroy_passes_over {σ : Type}
    (get : GetVoiceConnectorStreamingConfigurationInput → σ →
      (Option GetVoiceConnectorStreamingConfigurationOutput × Option GoError) × σ)
    (resources : List ResourceState) (w : σ)
    (h : ∀ rs ∈ resources, rs.Type_ ≠ "aws_chime_voice_connector_termination") :
    testAccCheckAWSChimeVoiceConnectorStreamingDestroy get resources w = (none, w) := by
  induction resources with
  | nil => rfl
  | cons rs rest ih =>
    have h1 := h rs (by simp)
    have h2 : ∀ r ∈ rest, r.Type_ ≠ "aws_chime_voice_connector_termination" :=
      fun r hr => h r (List.mem_cons_of_mem _ hr)
    simp [testAccCheckAWSChimeVoiceConnectorStreamingDestroy, h1, ih h2]

/-- Claim C17, the code at the failing input.  The state holds one
`aws_chime_voice_connector_streaming` resource and the service still returns its
streaming configuration, yet the destroy check returns the nil error without
making a call, while on a resource of type
`aws_chime_voice_connector_termination` the same service makes it fail with
`error Chime Voice Connector streaming configuration still exists`. -/
theorem streamingDestroy_misses_streaming :
    testAccCheckAWSChimeVoiceConnectorStreamingDestroy streamingStillThere
        [{ Type_ := "aws_chime_voice_connector_streaming", PrimaryID := "vc-1" }] 0
      = (none, 0) ∧
    testAccCheckAWSChimeVoiceConnectorStreamingDestroy streamingStillThere
        [{ Type_ := "aws_chime_voice_connector_termination", PrimaryID := "vc-1" }] 0
      = (some (GoError.errorf
          "error Chime Voice Connector streaming configuration still exists"), 1) := by
  constructor
  · decide
  · decide

/-! ## Listener ARN of a listener rule ARN -/

theorem stringsSplit_stringsJoin (sep : Char) (parts : List String) (hne : parts ≠ [])
    (h : ∀ p ∈ parts, sep ∉ p.data) :
    stringsSplit (stringsJoin parts (String.mk [sep])) sep = parts := by
  unfold stringsSplit
  rw [stringsJoin_data]
  rw [splitChars_joinChars sep (parts.map String.data) (by simpa using hne)]
  · exact map_mk_map_data parts
  · intro v hv
    obtain ⟨p, hp, rfl⟩ := List.mem_map.1 hv
    exact h p hp

theorem stringsJoin_stringsSplit (sep : Char) (s : String) :
    stringsJoin (stringsSplit s sep) (String.mk [sep]) = s := by
  apply String.ext
  rw [stringsJoin_data]
  unfold stringsSplit
  have e : List.map String.data (List.map String.mk (splitChars sep s.data))
      = splitChars sep s.data := by
    simp [List.map_map, Function.comp_def]
  rw [e]
  exact joinChars_splitChars sep s.data

theorem mem_stringsJoin_data (sep : String) (parts : List String) (c : Char)
    (h : c ∈ (stringsJoin parts sep).data) : c ∈ sep.data ∨ ∃ p ∈ parts, c ∈ p.data := by
  rw [stringsJoin_data] at h
  rcases mem_joinChars _ _ _ h with h | ⟨v, hv, hc⟩
  · exact Or.inl h
  · obtain ⟨p, hp, rfl⟩ := List.mem_map.1 hv
    exact Or.inr ⟨p, hp, hc⟩

/-- Claim C16 (`lbListenerARNFromRuleARN`).  A listener rule ARN, that is `arn`,
partition, service, region, account and the resource
`listener-rule/<type>/<name>/<lb-id>/<listener-id>/<rule-id>` joined with `:`,
is mapped to the same ARN with `listener-rule` replaced by `listener` and the
last segment removed; an input on which the result is not empty is such an
ARN, so every other input is mapped to the empty string; and the five cases of
`TestLBListenerARNFromRuleARN` come out as the test expects. -/
theorem lbListenerARNFromRuleARN_spec :
    (∀ partition service region account lbType name lbID listenerID ruleID : String,
      (∀ p ∈ [partition, service, region, account, lbType, name, lbID, listenerID, ruleID],
        ':' ∉ p.data) →
      (∀ p ∈ [lbType, name, lbID, listenerID, ruleID], '/' ∉ p.data) →
      lbListenerARNFromRuleARN
          (stringsJoin ["arn", partition, service, region, account,
            stringsJoin ["listener-rule", lbType, name, lbID, listenerID, ruleID] "/"] ":") =
        stringsJoin ["arn", partition, service, region, account,
          stringsJoin ["listener", lbType, name, lbID, listenerID] "/"] ":") ∧
    (∀ ruleArn, lbListenerARNFromRuleARN ruleArn ≠ "" →
      ∃ partition service region account lbType name lbID listenerID ruleID,
        ruleArn = stringsJoin ["arn", partition, service, region, account,
          stringsJoin ["listener-rule", lbType, name, lbID, listenerID, ruleID] "/"] ":" ∧
        lbListenerARNFromRuleARN ruleArn =
          stringsJoin ["arn", partition, service, region, account,
            stringsJoin ["listener", lbType, name, lbID, listenerID] "/"] ":") ∧
    lbListenerARNFromRuleARN
        "arn:aws:elasticloadbalancing:us-east-1:012345678912:listener-rule/app/name/0123456789abcdef/abcdef0123456789/456789abcedf1234"
      = "arn:aws:elasticloadbalancing:us-east-1:012345678912:listener/app/name/0123456789abcdef/abcdef0123456789" ∧
    lbListenerARNFromRuleARN
        "arn:aws:elasticloadbalancing:us-east-1:012345678912:listener/app/name/0123456789abcdef/abcdef0123456789"
      = "" ∧
    lbListenerARNFromRuleARN
        "arn:aws:elasticloadbalancing:us-east-1:123456:targetgroup/my-targets/73e2d6bc24d8a067"
      = "" ∧
    lbListenerARNFromRuleARN "blah blah blah" = "" ∧
    lbListenerARNFromRuleARN "" = "" := by
  refine ⟨?_, ?_, by decide, by decide, by decide, by decide, by decide⟩
  · intro partition service region account lbType name lbID listenerID ruleID hc hs
    have hres : ':' ∉
        (stringsJoin ["listener-rule", lbType, name, lbID, listenerID, ruleID] "/").data := by
      intro hm
      rcases mem_stringsJoin_data _ _ _ hm with h | ⟨p, hp, hcp⟩
      · simp at h
      · simp only [List.mem_cons, List.mem_singleton, List.not_mem_nil, or_false] at hp
        rcases hp with rfl | hp
        · revert hcp; decide
        · exact hc p (by simp; tauto) hcp
    have h1 : stringsSplit
        (stringsJoin ["arn", partition, service, region, account,
          stringsJoin ["listener-rule", lbType, name, lbID, listenerID, ruleID] "/"] ":") ':'
        = ["arn", partition, service, region, account,
          stringsJoin ["listener-rule", lbType, name, lbID, listenerID, ruleID] "/"] := by
      apply stringsSplit_stringsJoin ':' _ (by simp)
      intro p hp
      simp only [List.mem_cons, List.mem_singleton, List.not_mem_nil, or_false] at hp
      rcases hp with rfl | rfl | rfl | rfl | rfl | rfl
      · decide
      · exact hc _ (by simp)
      · exact hc _ (by simp)
      · exact hc _ (by simp)
      · exact hc _ (by simp)
      · exact hres
    have h2 : stringsSplit
        (stringsJoin ["listener-rule", lbType, name, lbID, listenerID, ruleID] "/") '/'
        = ["listener-rule", lbType, name, lbID, listenerID, ruleID] := by
      apply stringsSplit_stringsJoin '/' _ (by simp)
      intro p hp
      simp only [List.mem_cons, List.mem_singleton, List.not_mem_nil, or_false] at hp
      rcases hp with rfl | hp
      · decide
      · exact hs p (by simp; tauto)
    unfold lbListenerARNFromRuleARN
    rw [h1]
    simp only []
    rw [h2]
    simp
  · intro ruleArn hne
    have hj := stringsJoin_stringsSplit ':' ruleArn
    unfold lbListenerARNFromRuleARN at hne ⊢
    rcases h : stringsSplit ruleArn ':' with
      _ | ⟨a0, _ | ⟨a1, _ | ⟨a2, _ | ⟨a3, _ | ⟨a4, _ | ⟨a5, _ | ⟨a6, r⟩⟩⟩⟩⟩⟩⟩
    all_goals rw [h] at hne hj
    all_goals simp only [] at hne
    all_goals try exact absurd rfl hne
    have hk := stringsJoin_stringsSplit '/' a5
    rcases h' : stringsSplit a5 '/' with
      _ | ⟨b0, _ | ⟨b1, _ | ⟨b2, _ | ⟨b3, _ | ⟨b4, _ | ⟨b5, _ | ⟨b6, r⟩⟩⟩⟩⟩⟩⟩
    all_goals rw [h'] at hne hk
    all_goals simp only [] at hne
    all_goals try exact absurd rfl hne
    by_cases hcond : a0 = "arn" ∧ b0 = "listener-rule"
    · obtain ⟨rfl, rfl⟩ := hcond
      refine ⟨a1, a2, a3, a4, b1, b2, b3, b4, b5, ?_, ?_⟩
      · rw [← hj]
        congr 1
        simp only [List.cons.injEq, true_and, and_true]
        exact hk.symm
      · simp [h']
    · rw [if_neg hcond] at hne
      exact absurd rfl hne

/-! ## Concrete instances, continued -/

/-- Witness of C13 on a client whose describe call succeeds with a nil output:
the read fails with `no results found`. -/
theorem transitGatewayRead_error_witness :
    (dataSourceAwsEc2TransitGatewayRead (fun _ => []) (fun _ _ => []) (fun _ => none)
        (transitGatewayDataWithId "tgw-1") (loggingEc2Client (none, none)) []).1.2
      = some (GoError.errorf "error reading EC2 Transit Gateway: no results found") :=
  ((transitGatewayRead_error (fun _ => []) (fun _ _ => []) (fun _ => none)
      (transitGatewayDataWithId "tgw-1") (loggingEc2Client (none, none)) []
      none none _ rfl).2.2.1 rfl (Or.inl rfl))

/-- Witness of C14 for a lookup by filter, the attribute `id` not being set, on
a client whose describe call returns the sample transit gateway: the read
succeeds, and the ID of the resource and the attribute `id` are both the ID of
the gateway. -/
theorem transitGatewayRead_success_witness :
    (dataSourceAwsEc2TransitGatewayRead (fun _ => []) (fun _ _ => []) (fun _ => none)
        { transitGatewayDataWithId "" with filter := sampleFilter }
        (loggingEc2Client
          (some { NextToken := none, TransitGateways := [some sampleTransitGateway] }, none))
        []).1.2 = none ∧
    (dataSourceAwsEc2TransitGatewayRead (fun _ => []) (fun _ _ => []) (fun _ => none)
        { transitGatewayDataWithId "" with filter := sampleFilter }
        (loggingEc2Client
          (some { NextToken := none, TransitGateways := [some sampleTransitGateway] }, none))
        []).1.1.Id = "tgw-1" ∧
    (dataSourceAwsEc2TransitGatewayRead (fun _ => []) (fun _ _ => []) (fun _ => none)
        { transitGatewayDataWithId "" with filter := sampleFilter }
        (loggingEc2Client
          (some { NextToken := none, TransitGateways := [some sampleTransitGateway] }, none))
        []).1.1.id = "tgw-1" ∧
    (dataSourceAwsEc2TransitGatewayRead (fun _ => []) (fun _ _ => []) (fun _ => none)
        { transitGatewayDataWithId "" with filter := sampleFilter }
        (loggingEc2Client
          (some { NextToken := none, TransitGateways := [some sampleTransitGateway] }, none))
        []).1.1.amazon_side_asn = some 64512 := by
  obtain ⟨output, tg, opts, h1, h2, h3, h4, _, _⟩ :=
    transitGatewayRead_success (fun _ => []) (fun _ _ => []) (fun _ => none)
      { transitGatewayDataWithId "" with filter := sampleFilter }
      (loggingEc2Client
        (some { NextToken := none, TransitGateways := [some sampleTransitGateway] }, none))
      [] rfl
  have e1 : output = { NextToken := none, TransitGateways := [some sampleTransitGateway] } :=
    (Option.some.inj h1).symm
  subst e1
  have e2 : tg = sampleTransitGateway := by
    simp only [List.cons.injEq, Option.some.injEq, and_true] at h2
    exact h2.symm
  subst e2
  have e3 : sampleTransitGateway.Options = some opts := h3
  refine ⟨rfl, ?_, ?_, ?_⟩
  · rw [h4]; rfl
  · rw [h4]; rfl
  · rw [h4]
    exact (Option.some.inj e3).symm ▸ rfl

/-- Witness of C20 on resource data with the attribute `id` set to `tgw-1` and
no filter: the request holds that one ID. -/
theorem transitGatewayRead_request_witness :
    (dataSourceAwsEc2TransitGatewayReadInput (fun _ => [])
        (transitGatewayDataWithId "tgw-1")).TransitGatewayIds = [some "tgw-1"] ∧
    (dataSourceAwsEc2TransitGatewayRead (fun _ => []) (fun _ _ => []) (fun _ => none)
        (transitGatewayDataWithId "tgw-1") (loggingEc2Client (none, none)) []).2 =
      [dataSourceAwsEc2TransitGatewayReadInput (fun _ => [])
        (transitGatewayDataWithId "tgw-1")] :=
  ⟨(transitGatewayRead_request (fun _ => []) (transitGatewayDataWithId "tgw-1")).1
      (by decide),
    (transitGatewayRead_request (fun _ => []) (transitGatewayDataWithId "tgw-1")).2.2.2.2.2.2.2
      Unit (fun _ _ => []) (fun _ => none) (loggingEc2Client (none, none)) (fun _ _ => rfl)⟩

/-- Witness of C15: after the first sample page, whose second deletion fails,
the listing fails with the skippable `UnsupportedOperation`; the sweep returns
the one deletion error. -/
theorem sweepScalingPlans_listing_error_witness :
    (sweepScalingPlans scriptedSweepClient sampleSkip scriptedDelete 2 "us-east-1"
        (sweepScript
          ([samplePage1].map (fun p => (p, none)) ++
            (samplePage2, some (GoError.sdk "UnsupportedOperation" "not here")) :: [])
          [none, some (GoError.errorf "boom")])).map (fun r => r.1)
      = some (some (SweeperError.multi { Errors := [GoError.errorf "boom"] })) := by
  obtain ⟨result, s', h, _, _, hs, _⟩ :=
    sweepScalingPlans_listing_error sampleSkip rfl [samplePage1] samplePage2
      (GoError.sdk "UnsupportedOperation" "not here") []
      [none, some (GoError.errorf "boom")] "us-east-1" 2 (by decide) (by decide)
  rw [h, hs rfl]
  rfl

/-- Witness of C18: on the two sample pages, with the second deletion failing,
all three scaling plans are deleted in order and the sweep returns the one
deletion error. -/
theorem sweepScalingPlans_deletions_witness :
    (sweepScalingPlans scriptedSweepClient sampleSkip scriptedDelete 2 "us-east-1"
        (sweepScript (([samplePage1] ++ [samplePage2]).map (fun p => (p, none)) ++ [])
          [none, some (GoError.errorf "boom")])).map (fun r => (r.1, r.2.deletes))
      = some (some (SweeperError.multi { Errors := [GoError.errorf "boom"] }),
          [{ Id := "????????????????", name := "a", scaling_plan_version := 1 },
           { Id := "????????????????", name := "b", scaling_plan_version := 0 },
           { Id := "????????????????", name := "", scaling_plan_version := 3 }]) := by
  obtain ⟨result, s', h, hd, _, _, hf⟩ :=
    sweepScalingPlans_deletions sampleSkip rfl [samplePage1] samplePage2 []
      [none, some (GoError.errorf "boom")] "us-east-1" 2 (by decide) (by decide) (by decide)
  have hd2 : s'.deletes =
      [{ Id := "????????????????", name := "a", scaling_plan_version := 1 },
       { Id := "????????????????", name := "b", scaling_plan_version := 0 },
       { Id := "????????????????", name := "", scaling_plan_version := 3 }] := by
    rw [hd]; rfl
  rw [hd2] at hf
  rw [h, hf (by decide)]
  simp only [Option.map_some', hd2]
  rfl

/-- Witness of C19: on the two sample pages the sweep makes two requests, the
first without a token and the second with the token `t1` of the first page. -/
theorem sweepScalingPlans_pagination_witness :
    (sweepScalingPlans scriptedSweepClient sampleSkip scriptedDelete 2 "us-east-1"
        (sweepScript (([samplePage1] ++ [samplePage2]).map (fun p => (p, none)) ++ [])
          [none, some (GoError.errorf "boom")])).map (fun r => r.2.requests)
      = some [{}, { NextToken := some "t1" }] := by
  obtain ⟨result, s', h, _, _, hq, _⟩ :=
    sweepScalingPlans_pagination sampleSkip rfl [samplePage1] samplePage2 []
      [none, some (GoError.errorf "boom")] "us-east-1" 2 (by decide) (by decide) (by decide)
  rw [h]
  simp only [Option.map_some', hq]
  rfl

/-- Witness of C16 at the listener rule ARN of the test. -/
theorem lbListenerARNFromRuleARN_spec_witness :
    lbListenerARNFromRuleARN
        (stringsJoin ["arn", "aws", "elasticloadbalancing", "us-east-1", "012345678912",
          stringsJoin ["listener-rule", "app", "name", "0123456789abcdef", "abcdef0123456789",
            "456789abcedf1234"] "/"] ":") =
      stringsJoin ["arn", "aws", "elasticloadbalancing", "us-east-1", "012345678912",
        stringsJoin ["listener", "app", "name", "0123456789abcdef", "abcdef0123456789"] "/"] ":" :=
  lbListenerARNFromRuleARN_spec.1 "aws" "elasticloadbalancing" "us-east-1" "012345678912"
    "app" "name" "0123456789abcdef" "abcdef0123456789" "456789abcedf1234"
    (by decide) (by decide)

end AwsProvider
